import Mathlib

/-!
Cinemad: query layer and booking layer.

A shallow embedding of `src/cinemad/database.c` (query layer and record I/O), of the
booking functions and the reply step of `request_handler` in `src/cinemad/cinemad.c`, and
of the comparison function and the index build of `src/cinemad/storage.c`.

Conventions.
* A C string is the list of its bytes before the terminating NUL, one `Char` per byte.
* The data file is the list of its bytes.
* `char` is signed and `int` has 32 bits, `long` 64, as on x86-64 Linux.
* `malloc`, `strdup`, `asprintf`, `dup`, `fdopen`, `fseek`, `fputc`, `fflush`, `fclose` and the
  lock calls are taken to succeed; the only read fault kept is the one `database_read`
  detects itself.
* A function whose C body dereferences a NULL pointer, or hands `free` a word that is no
  pointer, returns `none`: the process is killed by a signal.
* The heap is that of glibc malloc on x86-64: the chunk of a block is the request and one
  header word, rounded up to a multiple of 16 and at least 32 bytes; the block may be used
  up to 8 bytes before the end of its chunk, and the word behind that is the size field
  of the next chunk, which is no pointer. A word of a block that the program has not
  written is taken to hold zero. It matters in one place: the clean-up loops of db_book
  and db_unbook hand `rquery[ntoken]` or `wquery[ntoken]`, the word one past the end of
  the array, to `free` (cinemad.c:738, 750, 760, 823, 835, 847). Every other `free` is
  the `free` of a live block and returns.
* WORDLEN, of the absent resources.h, is the parameter `W`.
-/

set_option autoImplicit false

namespace Cinemad

/-! ## Strings -/

/-- A C string: the bytes before the terminating NUL. -/
abbrev CStr := List Char

/-- The NUL byte. -/
def NUL : Char := Char.ofNat 0

/-- The space byte, the only delimiter handed to strtok_r. -/
def SP : Char := Char.ofNat 32

/-- The byte 0xFF, which a signed `char` holds as -1. -/
def BYTE_FF : Char := Char.ofNat 255

/-- Modelled from the spec: reply word `SUCCESS`, the macro DBMSG_SUCC of the absent
resources.h. -/
def DBMSG_SUCC : CStr := "SUCCESS".toList

/-- Modelled from the spec: reply word `FAILURE`, the macro DBMSG_FAIL of the absent
resources.h. -/
def DBMSG_FAIL : CStr := "FAILURE".toList

/-- Modelled from the spec: reply word `ERROR`, the macro DBMSG_ERR of the absent
resources.h. -/
def DBMSG_ERR : CStr := "ERROR".toList

/-- The bytes of a buffer read as a C string: everything before the first NUL. -/
def cstr (bytes : List Char) : CStr := bytes.takeWhile (fun c => c ≠ NUL)

/-- The scan that the calls `strtok_r(buff, " ", &saveptr)`, `strtok_r(NULL, " ", &saveptr)`, ...
perform: `cur` is the token being read, reversed. A space closes the token being read, if
any; spaces in a row are skipped. -/
def strtok_scan : CStr → CStr → List CStr
  | cur, [] => if cur = [] then [] else [cur.reverse]
  | cur, c :: cs =>
    if c = SP then
      if cur = [] then strtok_scan [] cs else cur.reverse :: strtok_scan [] cs
    else strtok_scan (c :: cur) cs

/-- The tokens `token[0], token[1], ...` collected before strtok_r returns NULL
(database.c:194-202, cinemad.c:699-707 and 791-799). -/
def strtok_all (s : CStr) : List CStr := strtok_scan [] s

/-! ## Query parser (database.c:180-229) -/

/-- The struct query: key and value, each a C string of at most WORDLEN bytes held in a
zeroed buffer of WORDLEN + 1 bytes. -/
structure query where
  key : CStr
  value : CStr
deriving DecidableEq, Repr

/-- The outcome of get_parsed_query. -/
inductive ParseResult where
  /-- The function returned 0 and filled the query. -/
  | ok (q : query)
  /-- The function returned 1. -/
  | malformed
  /-- No token at all: `token[0]` is NULL, `ntoken` ends as 1 and `strlen(token[0])`
  dereferences NULL. -/
  | null_deref
deriving DecidableEq, Repr

/-- The function get_parsed_query of database.c, `W` being WORDLEN. -/
def get_parsed_query (W : Nat) (q : CStr) : ParseResult :=
  match strtok_all q with
  | [] => ParseResult.null_deref
  | [t0] =>
    if t0.length > W then ParseResult.malformed
    else ParseResult.ok ⟨t0, []⟩
  | [t0, t1, t2] =>
    if t0.length > W ∨ t2.length > W ∨ t1 ≠ "AS".toList then ParseResult.malformed
    else ParseResult.ok ⟨t0, t2⟩
  | _ => ParseResult.malformed

/-! ## Data file and index table -/

/-- The struct database: the bytes of the file behind `fd`, and the index table as an
association list from key to value offset in which an earlier entry shadows a later one. -/
structure database where
  file : List Char
  index_table : List (CStr × Nat)
deriving DecidableEq, Repr

/-- The first `W` bytes of a zeroed buffer that holds the C string `s`: what the loop of
database_write sends to the stream. -/
def word (W : Nat) (s : CStr) : List Char := (s ++ List.replicate W NUL).take W

/-- The file after `fseek(strm, off, SEEK_SET)` and one `fputc` per byte of `data`: a gap
between the end of the file and `off` reads as NUL bytes. -/
def write_at (file : List Char) (off : Nat) (data : List Char) : List Char :=
  (file.take off ++ List.replicate (off - file.length) NUL) ++ data
    ++ file.drop (off + data.length)

/-- The function database_read of database.c at stream position `off`: `W` calls of fgetc,
each result stored as a `char` and that `char` compared with EOF. With a signed `char`
the comparison holds at the end of the file and also on the byte 0xFF; in both cases the
function returns 1, here `none`. Otherwise the buffer is NUL-terminated and returned. -/
def database_read (W : Nat) (file : List Char) (off : Nat) : Option CStr :=
  let bytes := (file.drop off).take W
  if bytes.length < W ∨ BYTE_FF ∈ bytes then none else some (cstr bytes)

/-- Modelled from the spec: `key_offset(key) → offset | absent` of the index table
(index_table_key_offset, absent from index_table.c). -/
def index_table_key_offset (t : List (CStr × Nat)) (key : CStr) : Option Nat :=
  (t.find? (fun e => e.1 = key)).map (fun e => e.2)

/-- Modelled from the spec: `rebuild_from_stream(stream)` of the index table
(index_table_update, absent from index_table.c): rescan the file from the start and give
every key word on disk an entry with the offset of its value word, replacing an older
entry of the same key. Record `i` has its key word at `2*i*W` and its value word at
`(2*i+1)*W`. -/
def index_table_update (W : Nat) (t : List (CStr × Nat)) (file : List Char) :
    List (CStr × Nat) :=
  ((List.range (file.length / (2 * W))).map
    (fun i => (cstr ((file.drop (2 * i * W)).take W), (2 * i + 1) * W))).reverse ++ t

/-! ## Storage engine and query execution (database.c:110-136, 231-341) -/

/-- The function database_get of database.c. `none` is `return 1`; `some r` is
`return 0` with `*result = r`. The data are not changed. -/
def database_get (W : Nat) (db : database) (parsed_query : query) : Option CStr :=
  match index_table_key_offset db.index_table parsed_query.key with
  | none => some DBMSG_FAIL
  | some offset => database_read W db.file offset

/-- The function database_set of database.c; it returns 0 with `*result = DBMSG_SUCC`
on every path that meets no I/O fault. An absent key is looked up a second time under
the writer lock, then the record is appended and the index rebuilt; `offset` stays -1 on
that path, so the in-place write is skipped. -/
def database_set (W : Nat) (db : database) (parsed_query : query) : database × CStr :=
  match index_table_key_offset db.index_table parsed_query.key with
  | none =>
    match index_table_key_offset db.index_table parsed_query.key with
    | none =>
      let file := db.file ++ word W parsed_query.key ++ word W parsed_query.value
      (⟨file, index_table_update W db.index_table file⟩, DBMSG_SUCC)
    | some offset =>
      (⟨write_at db.file offset (word W parsed_query.value), db.index_table⟩, DBMSG_SUCC)
  | some offset =>
    (⟨write_at db.file offset (word W parsed_query.value), db.index_table⟩, DBMSG_SUCC)

/-- The function database_execute of database.c: the data afterwards, the return value
and `*result`. `none` when get_parsed_query dereferences NULL. -/
def database_execute (W : Nat) (db : database) (q : CStr) :
    Option (database × Int × CStr) :=
  if q.length < 5 then some (db, 1, DBMSG_ERR)
  else
    match get_parsed_query W (q.drop 4) with
    | ParseResult.null_deref => none
    | ParseResult.malformed => some (db, 1, DBMSG_ERR)
    | ParseResult.ok parsed_query =>
      if q.take 4 = "SET ".toList then
        some ((database_set W db parsed_query).1, 0, (database_set W db parsed_query).2)
      else if q.take 4 = "GET ".toList then
        match database_get W db parsed_query with
        | none => some (db, 1, DBMSG_ERR)
        | some r => some (db, 0, r)
      else some (db, 0, DBMSG_FAIL)

/-! ## Integers in text -/

/-- The predicate isspace in the C locale: space, and the bytes 9 to 13. -/
def isspace (c : Char) : Bool := c = SP ∨ (9 ≤ c.toNat ∧ c.toNat ≤ 13)

/-- The value of the leading decimal digits of `s`, `acc` being the value read so far. -/
def digits_value : Nat → CStr → Nat
  | acc, [] => acc
  | acc, c :: cs =>
    if 48 ≤ c.toNat ∧ c.toNat ≤ 57 then digits_value (acc * 10 + (c.toNat - 48)) cs else acc

/-- The value strtol(s, NULL, 10) before it is clamped: white space, an optional sign,
decimal digits. -/
def strtol_value (s : CStr) : Int :=
  match s.dropWhile isspace with
  | [] => 0
  | c :: cs =>
    if c = Char.ofNat 45 then -((digits_value 0 cs : Nat) : Int)
    else if c = Char.ofNat 43 then ((digits_value 0 cs : Nat) : Int)
    else ((digits_value 0 (c :: cs) : Nat) : Int)

/-- A value stored in a 32-bit `int`: reduced modulo 2^32 into [-2^31, 2^31). -/
def wrap32 (i : Int) : Int := (i + 2 ^ 31) % 2 ^ 32 - 2 ^ 31

/-- The function atoi as glibc computes it with a 64-bit `long`: strtol clamps to the
range of `long`, and the conversion to `int` keeps the low 32 bits. -/
def atoi (s : CStr) : Int :=
  wrap32 (max (-(2 ^ 63)) (min (2 ^ 63 - 1) (strtol_value s)))

/-- The conversion `%d` of asprintf. -/
def fmt_d (i : Int) : CStr :=
  if i < 0 then Char.ofNat 45 :: (Nat.repr i.natAbs).toList else (Nat.repr i.toNat).toList

/-! ## Booking layer (cinemad.c:613-859) -/

/-- The function db_get_id of cinemad.c: the data afterwards and the returned id, -1 on
error. `id++` is kept in 32 bits. -/
def db_get_id (W : Nat) (db : database) : Option (database × Int) :=
  match database_execute W db "GET ID_COUNTER FROM CONFIG".toList with
  | none => none
  | some (db1, ret, result) =>
    if ret = 1 then some (db1, -1)
    else
      match database_execute W db1
          ("SET ID_COUNTER FROM CONFIG AS ".toList ++ fmt_d (wrap32 (atoi result + 1))) with
      | none => none
      | some (db2, ret2, _) =>
        if ret2 = 1 then some (db2, -1) else some (db2, wrap32 (atoi result + 1))

/-- The outcome of one of the two loops of db_book and db_unbook. -/
inductive LoopResult where
  /-- The loop ran to its end. -/
  | done (db : database)
  /-- The function returned 1 from inside the loop; `result` is `*result` at that point,
  `none` once it has been freed. -/
  | ret1 (db : database) (result : Option CStr)
deriving DecidableEq, Repr

/-- The read loop of db_book (cinemad.c:736-756, with `expected` = "0") and of db_unbook
(cinemad.c:821-842, with `expected` = the id word): execute each read query; return 1
when database_execute returns 1, and return 1 when the reply differs from `expected`. -/
def read_loop (W : Nat) (expected : CStr) : database → List CStr → Option LoopResult
  | db, [] => some (LoopResult.done db)
  | db, rq :: rest =>
    match database_execute W db rq with
    | none => none
    | some (db1, ret, result) =>
      if ret = 1 then some (LoopResult.ret1 db1 (some result))
      else if result ≠ expected then some (LoopResult.ret1 db1 none)
      else read_loop W expected db1 rest

/-- The write loop of db_book (cinemad.c:758-766) and of db_unbook (cinemad.c:845-853):
execute each write query; return 1 when database_execute returns 1. -/
def write_loop (W : Nat) : database → List CStr → Option LoopResult
  | db, [] => some (LoopResult.done db)
  | db, wq :: rest =>
    match database_execute W db wq with
    | none => none
    | some (db1, ret, result) =>
      if ret = 1 then some (LoopResult.ret1 db1 (some result))
      else write_loop W db1 rest

/-- The read query `GET %s FROM DATA` of a seat token. -/
def rquery (seat : CStr) : CStr := "GET ".toList ++ seat ++ " FROM DATA".toList

/-- The write query `SET %s FROM DATA AS %s` of a seat token and a value. -/
def wquery (seat value : CStr) : CStr :=
  "SET ".toList ++ seat ++ " FROM DATA AS ".toList ++ value

/-- The size in bytes of the chunk glibc malloc on x86-64 uses for a request of
`request` bytes: the request and one header word, rounded up to a multiple of 16, and at
least 32. The block handed out may be used for 8 bytes less than the chunk size; the
word behind that is the size field of the next chunk. -/
def chunk_size (request : Nat) : Nat := max 32 ((request + 8 + 15) / 16 * 16)

/-- Whether the clean-up loop `for (int j = i; j < ntoken; free(rquery[++j]));`
(cinemad.c:738, 750, 823, 835; with `wquery` at 760, 847) returns. The loop frees the
strings behind the current one and then `rquery[ntoken]`, the word one past the end of the
array of `ntoken` pointers that `malloc(sizeof(char*) * ntoken)` returned. When that word
still lies in the block, it was never written and holds NULL, and `free` returns; when it
lies behind the block, it is the size field of the next chunk and `free` is killed. -/
def free_past_end_returns (ntoken : Nat) : Bool :=
  decide (8 * ntoken + 8 ≤ chunk_size (8 * ntoken) - 8)

/-- The function db_book of cinemad.c: the data afterwards, the return value and
`*result` (`none` when it was not set or has been freed). The function returns `none`
when the process is killed: the request has no token and `strcmp(token[0], "0")`
dereferences NULL, or a loop returns 1 and its clean-up loop frees a word that is no
pointer. -/
def db_book (W : Nat) (db : database) (request : CStr) :
    Option (database × Int × Option CStr) :=
  match strtok_all request with
  | [] => none
  | t0 :: seats =>
    match (if t0 = "0".toList then db_get_id W db else some (db, atoi t0)) with
    | none => none
    | some (db1, id) =>
      if t0 = "0".toList ∧ id = -1 then some (db1, 1, none)
      else
        match read_loop W "0".toList db1 (seats.map rquery) with
        | none => none
        | some (LoopResult.ret1 db2 r) =>
          if free_past_end_returns seats.length then some (db2, 1, r) else none
        | some (LoopResult.done db2) =>
          match write_loop W db2 (seats.map (fun s => wquery s (fmt_d id))) with
          | none => none
          | some (LoopResult.ret1 db3 r) =>
            if free_past_end_returns seats.length then some (db3, 1, r) else none
          | some (LoopResult.done db3) => some (db3, 0, some (fmt_d id))

/-- The function db_unbook of cinemad.c, with the same result convention as db_book;
`none` when the process is killed: the request has no token and `strdup(*token)`
dereferences NULL, or a loop returns 1 and its clean-up loop frees a word that is no
pointer. -/
def db_unbook (W : Nat) (db : database) (request : CStr) :
    Option (database × Int × Option CStr) :=
  match strtok_all request with
  | [] => none
  | id :: seats =>
    match read_loop W id db (seats.map rquery) with
    | none => none
    | some (LoopResult.ret1 db1 r) =>
      if free_past_end_returns seats.length then some (db1, 1, r) else none
    | some (LoopResult.done db1) =>
      match write_loop W db1 (seats.map (fun s => wquery s "0".toList)) with
      | none => none
      | some (LoopResult.ret1 db2 r) =>
        if free_past_end_returns seats.length then some (db2, 1, r) else none
      | some (LoopResult.done db2) => some (db2, 0, some DBMSG_SUCC)

/-- The field db_send_status appends for one seat (cinemad.c:648-657 and 663-672): "1"
or "2" when atoi of the reply is not 0, otherwise the reply itself. -/
def status_field (id : Int) (buffer : CStr) : CStr :=
  if atoi buffer ≠ 0 then (if atoi buffer = id then "1".toList else "2".toList) else buffer

/-- The loop of db_send_status over the seats `i = 1, 2, ...` (cinemad.c:659-677); the
return value of database_execute is not looked at. -/
def status_loop (W : Nat) (id : Int) : database → List Nat → CStr → Option (database × CStr)
  | db, [], result => some (db, result)
  | db, i :: rest, result =>
    match database_execute W db (rquery (fmt_d (i : Int))) with
    | none => none
    | some (db1, _, buffer) =>
      status_loop W id db1 rest (result ++ SP :: status_field id buffer)

/-- The function db_send_status of cinemad.c, `rows` and `columns` being the globals of
that name; it returns 0 on every path. The loop bound `rows * columns` is a product of
two `int`, taken modulo 2^32 as gcc on x86-64 computes it. -/
def db_send_status (W : Nat) (rows columns : Int) (db : database) (request : CStr) :
    Option (database × Int × CStr) :=
  if rows = 0 ∨ columns = 0 then some (db, 0, [])
  else
    match database_execute W db "GET 0 FROM DATA".toList with
    | none => none
    | some (db1, _, buffer) =>
      match status_loop W (if request.length = 0 then -1 else atoi request) db1
          (List.range' 1 ((wrap32 (rows * columns)).toNat - 1))
          (status_field (if request.length = 0 then -1 else atoi request) buffer) with
      | none => none
      | some (db2, result) => some (db2, 0, result)

/-! ## Reply step of the worker (cinemad.c:19-23, 413-453) -/

/-- How the reply step of request_handler ends. -/
inductive Outcome where
  /-- The worker reached connection_send with `msg` (`none`: a pointer that was never set
  or was freed) and returned; `lock_held` tells whether db_serializing_mutex is still
  held by the worker. -/
  | sent (db : database) (msg : Option CStr) (lock_held : Bool)
  /-- The macro `try` called exit(EXIT_FAILURE): the process ended, nothing was sent;
  `lock_held` tells whether db_serializing_mutex was held at that point. -/
  | exit_failure (db : database) (lock_held : Bool)
  /-- The process was killed by a signal: a NULL pointer was dereferenced, or a clean-up
  loop handed `free` a word that is no pointer. -/
  | null_deref
deriving DecidableEq, Repr

/-- The macro `try(foo, err_value)` applied to a call that returned `ret`: when `ret`
equals `err_value` the process exits, otherwise `continue_with` runs. -/
def try_call (ret err_value : Int) (db : database) (continue_with : Outcome) : Outcome :=
  if ret = err_value then Outcome.exit_failure db true else continue_with

/-- The reply step of request_handler (cinemad.c:413-453) on the received text `buff`:
take db_serializing_mutex, dispatch on the first byte, release the mutex, send. -/
def request_handler (W : Nat) (rows columns : Int) (db : database) (buff : CStr) : Outcome :=
  match buff with
  | [] =>
    match database_execute W db buff with
    | none => Outcome.null_deref
    | some (db1, ret, msg) => try_call ret (-1) db1 (Outcome.sent db1 (some msg) false)
  | c :: rest =>
    if c = Char.ofNat 35 then
      match db_book W db rest with
      | none => Outcome.null_deref
      | some (db1, ret, msg) => try_call ret 1 db1 (Outcome.sent db1 msg false)
    else if c = Char.ofNat 64 then
      match db_unbook W db rest with
      | none => Outcome.null_deref
      | some (db1, ret, msg) => try_call ret 1 db1 (Outcome.sent db1 msg false)
    else if c = Char.ofNat 126 then
      match db_send_status W rows columns db rest with
      | none => Outcome.null_deref
      | some (db1, ret, msg) => try_call ret 1 db1 (Outcome.sent db1 (some msg) false)
    else
      match database_execute W db buff with
      | none => Outcome.null_deref
      | some (db1, ret, msg) => try_call ret (-1) db1 (Outcome.sent db1 (some msg) false)

/-! ## Observations and request sequences -/

/-- The value stored under `key`, as database_get returns it: `some DBMSG_FAIL` when the
key has no index entry, `none` when the read fails. -/
def stored_value (W : Nat) (db : database) (key : CStr) : Option CStr :=
  database_get W db ⟨key, []⟩

/-- A request handled under the writer lock: the text after the dispatch byte `#` or `@`. -/
inductive Request where
  | book (payload : CStr)
  | unbook (payload : CStr)
deriving DecidableEq, Repr

/-- The id that db_book obtains from db_get_id on this request, if it obtains one: the id
word is "0" and db_get_id does not return -1. -/
def minted_by (W : Nat) (db : database) (payload : CStr) : List Int :=
  match strtok_all payload with
  | [] => []
  | t0 :: _ =>
    if t0 = "0".toList then
      match db_get_id W db with
      | none => []
      | some (_, id) => if id = -1 then [] else [id]
    else []

/-- The data after a sequence of book and unbook requests, each run to its return whatever
it returns, and the ids minted on the way; `none` if a request ends the process before
it returns (db_book or db_unbook is killed). -/
def run_requests (W : Nat) : database → List Request → Option (database × List Int)
  | db, [] => some (db, [])
  | db, Request.book payload :: rest =>
    match db_book W db payload with
    | none => none
    | some (db1, _, _) =>
      (run_requests W db1 rest).map (fun r => (r.1, minted_by W db payload ++ r.2))
  | db, Request.unbook payload :: rest =>
    match db_unbook W db payload with
    | none => none
    | some (db1, _, _) => run_requests W db1 rest

/-- A data file of one record, key `0` and value `7`, with its index entry (WORDLEN 16). -/
def db_seat0_taken : database :=
  ⟨word 16 "0".toList ++ word 16 "7".toList, [("0".toList, 16)]⟩

/-- A data file of one record, key `0` and value `0`, with its index entry (WORDLEN 16). -/
def db_seat0_free : database :=
  ⟨word 16 "0".toList ++ word 16 "0".toList, [("0".toList, 16)]⟩

/-- A data file of one record, key `ID_COUNTER` and value `0`, with its index entry
(WORDLEN 16). -/
def db_counter0 : database :=
  ⟨word 16 "ID_COUNTER".toList ++ word 16 "0".toList, [("ID_COUNTER".toList, 16)]⟩

/-- The data file after `SET a AS v` on an empty file, `v` being the single byte 0xFF
(WORDLEN 16). -/
def db_a_ff : database :=
  ⟨word 16 "a".toList ++ word 16 [BYTE_FF], [("a".toList, 16)]⟩

/-! ## The parser rules in the words of the spec -/

/-- The shape test as the spec words it (parser rules): the tokens are a single key, or
key, `AS`, value, and neither key nor value exceeds `W` bytes. -/
def shape_accepted (W : Nat) : List CStr → Bool
  | [k] => decide (k.length ≤ W)
  | [k, sep, v] => decide (k.length ≤ W) && decide (v.length ≤ W) && decide (sep = "AS".toList)
  | _ => false

/-! ## Lock calls of the storage engine (database.c:231-341) -/

/-- A call on the table-level lock of the index table (index_table_rdlock,
index_table_wrlock, index_table_unlock) or on the lock of one key (pthread_rwlock_rdlock,
pthread_rwlock_wrlock, pthread_rwlock_unlock on the lock index_table_key_lock returns). -/
inductive LockCall where
  | table_rdlock
  | table_wrlock
  | table_unlock
  | key_rdlock (key : CStr)
  | key_wrlock (key : CStr)
  | key_unlock (key : CStr)
deriving DecidableEq, Repr

/-- The lock calls database_get makes before it returns, in order. On an absent key it
returns right after index_table_rdlock; when database_read fails it returns with both
locks taken. -/
def database_get_lock_calls (W : Nat) (db : database) (parsed_query : query) :
    List LockCall :=
  match index_table_key_offset db.index_table parsed_query.key with
  | none => [LockCall.table_rdlock]
  | some offset =>
    match database_read W db.file offset with
    | none => [LockCall.table_rdlock, LockCall.key_rdlock parsed_query.key]
    | some _ =>
      [LockCall.table_rdlock, LockCall.key_rdlock parsed_query.key,
        LockCall.key_unlock parsed_query.key, LockCall.table_unlock]

/-- The lock calls database_set makes before it returns, in order. -/
def database_set_lock_calls (db : database) (parsed_query : query) : List LockCall :=
  match index_table_key_offset db.index_table parsed_query.key with
  | none =>
    [LockCall.table_rdlock, LockCall.table_unlock, LockCall.table_wrlock,
      LockCall.table_unlock]
  | some _ =>
    [LockCall.table_rdlock, LockCall.key_wrlock parsed_query.key,
      LockCall.key_unlock parsed_query.key, LockCall.table_unlock]

/-- Modelled from the spec: the effect of index_table_rdlock, index_table_wrlock and
index_table_unlock (absent from index_table.c) on the table-level lock, as the number of
holds a sequence of lock calls leaves: one more for each rdlock or wrlock, one less for
each unlock. -/
def table_holds : List LockCall → Int
  | [] => 0
  | LockCall.table_rdlock :: rest => table_holds rest + 1
  | LockCall.table_wrlock :: rest => table_holds rest + 1
  | LockCall.table_unlock :: rest => table_holds rest - 1
  | _ :: rest => table_holds rest

/-- The holds on the lock of `key` left by a sequence of lock calls. -/
def key_holds (key : CStr) : List LockCall → Int
  | [] => 0
  | LockCall.key_rdlock k :: rest => key_holds key rest + (if k = key then 1 else 0)
  | LockCall.key_wrlock k :: rest => key_holds key rest + (if k = key then 1 else 0)
  | LockCall.key_unlock k :: rest => key_holds key rest - (if k = key then 1 else 0)
  | _ :: rest => key_holds key rest

/-! ## Well-formed data -/

/-- Every index entry is the offset of a value word that lies inside the file: an odd
multiple of `W`, with `W` more bytes behind it. -/
def index_in_file (W : Nat) (db : database) : Prop :=
  ∀ e ∈ db.index_table, e.2 % (2 * W) = W ∧ e.2 + W ≤ db.file.length

instance (W : Nat) (db : database) : Decidable (index_in_file W db) := by
  unfold index_in_file
  infer_instance

/-! ## Index build of storage.c (storage.c:252-326) -/

/-- The macro MAXLEN of storage.c. -/
def MAXLEN : Nat := 16

/-- The value of a byte held in a signed `char`: 0x00..0x7F are 0..127, 0x80..0xFF are
-128..-1. -/
def schar (c : Char) : Int := if c.toNat < 128 then (c.toNat : Int) else (c.toNat : Int) - 256

/-- The function lexicographical_comparison of storage.c on two NUL-terminated strings;
the end of a list is the terminating NUL. The bytes are compared as `char` values. -/
def lexicographical_comparison : CStr → CStr → Int
  | [], [] => 0
  | _ :: _, [] => 1
  | [], _ :: _ => -1
  | a :: as, b :: bs =>
    if schar a < schar b then -1
    else if schar a > schar b then 1
    else lexicographical_comparison as bs

/-- The order of two bytes as signed `char` values. -/
def char_lt (a b : Char) : Prop := schar a < schar b

instance : DecidableRel char_lt := fun a b => by
  unfold char_lt
  infer_instance

/-- The order of two bytes as numbers 0..255. -/
def byte_lt (a b : Char) : Prop := a.toNat < b.toNat

instance : DecidableRel byte_lt := fun a b => by
  unfold byte_lt
  infer_instance

/-- The bytes of a C string: none is NUL and each is below 256. -/
def is_cstring (s : CStr) : Prop := ∀ c ∈ s, c ≠ NUL ∧ c.toNat < 256

instance (s : CStr) : Decidable (is_cstring s) := by
  unfold is_cstring
  infer_instance

/-- Modelled from the spec: the ordered map of the absent avl_tree.h, as the list of its
entries, key and value offset of the index record; no two entries have keys that the
comparison function calls equal. -/
abbrev avl_tree := List (CStr × Nat)

/-- Modelled from the spec: `search(key) → value?` of the ordered map (avl_tree_search),
with lexicographical_comparison as the order. -/
def avl_tree_search (t : avl_tree) (key : CStr) : Option Nat :=
  (t.find? (fun e => lexicographical_comparison key e.1 = 0)).map (fun e => e.2)

/-- Modelled from the spec: `insert(key, value) → {inserted, replaced}` of the ordered map
(avl_tree_insert), with lexicographical_comparison as the order; the call returns 0. -/
def avl_tree_insert : avl_tree → CStr → Nat → avl_tree
  | [], key, record => [(key, record)]
  | e :: t, key, record =>
    if lexicographical_comparison key e.1 = 0 then (key, record) :: t
    else e :: avl_tree_insert t key record

/-- The loop of load_table (storage.c:279-321) with the stream at `pos` and `rest` the
bytes from there on. At the end of the file the loop ends and the function returns 0,
here `some` of the index. Otherwise MAXLEN bytes are read as the key; the read returns 1,
here `none`, at the end of the file and, the byte being stored in a signed `char` before
the comparison with EOF, on the byte 0xFF. The offset after the key is recorded and the
value word is skipped. -/
def load_table_scan (pos : Nat) (rest : List Char) (t : avl_tree) : Option avl_tree :=
  if _hend : rest = [] then some t
  else if (rest.take MAXLEN).length < MAXLEN ∨ BYTE_FF ∈ rest.take MAXLEN then none
  else
    load_table_scan (pos + 2 * MAXLEN) (rest.drop (2 * MAXLEN))
      (avl_tree_insert t (cstr (rest.take MAXLEN)) (pos + MAXLEN))
termination_by rest.length
decreasing_by
  have h1 : 0 < rest.length := List.length_pos.mpr _hend
  simp only [List.length_drop, MAXLEN]
  omega

/-- The function load_table of storage.c on the bytes of the file and the index built so
far, empty when storage_init calls it. -/
def load_table (file : List Char) (t : avl_tree) : Option avl_tree :=
  load_table_scan 0 file t

/-- A file of one whole record whose key is the single byte 0xFF and whose value is `0`. -/
def file_key_ff : List Char := word MAXLEN [BYTE_FF] ++ word MAXLEN "0".toList

/-- The file that holds the given records in order, key word then value word. -/
def records_file (records : List (CStr × CStr)) : List Char :=
  (records.map (fun r => word MAXLEN r.1 ++ word MAXLEN r.2)).flatten

/-- The index entries of the given records when the first of them starts at `pos`: each
key with the offset of its value word, in file order. -/
def record_entries (pos : Nat) : List (CStr × CStr) → avl_tree
  | [] => []
  | r :: rs => (r.1, pos + MAXLEN) :: record_entries (pos + 2 * MAXLEN) rs

/-- A data file of two records, `ID_COUNTER` with value `0` and `0` with value `7`, with
its index entries (WORDLEN 16). -/
def db_counter0_seat0_taken : database :=
  ⟨word 16 "ID_COUNTER".toList ++ word 16 "0".toList ++ word 16 "0".toList
      ++ word 16 "7".toList,
    [("ID_COUNTER".toList, 16), ("0".toList, 48)]⟩

/-! ## Lemmas on the tokenizer and the parser -/

theorem strtok_scan_append_sp (s r cur : CStr) :
    strtok_scan cur (s ++ SP :: r) = strtok_scan cur s ++ strtok_scan [] r := by
  induction s generalizing cur with
  | nil =>
    by_cases h : cur = [] <;> simp [strtok_scan, h]
  | cons c cs ih =>
    by_cases hc : c = SP
    · by_cases h : cur = [] <;> simp [strtok_scan, hc, h, ih]
    · simp [strtok_scan, hc, ih]

theorem strtok_all_append_sp (s r : CStr) :
    strtok_all (s ++ SP :: r) = strtok_all s ++ strtok_all r := by
  simp [strtok_all, strtok_scan_append_sp]

theorem strtok_scan_no_sp (s cur : CStr) (hs : SP ∉ s) (hne : cur ≠ [] ∨ s ≠ []) :
    strtok_scan cur s = [cur.reverse ++ s] := by
  induction s generalizing cur with
  | nil =>
    have h : cur ≠ [] := by simpa using hne
    simp [strtok_scan, h]
  | cons c cs ih =>
    have hc : c ≠ SP := fun h => hs (by simp [h])
    have hcs : SP ∉ cs := fun h => hs (by simp [h])
    simp [strtok_scan, hc, ih (c :: cur) hcs (Or.inl (by simp))]

theorem strtok_all_no_sp (s : CStr) (hs : SP ∉ s) (hne : s ≠ []) : strtok_all s = [s] := by
  simpa [strtok_all] using strtok_scan_no_sp s [] hs (Or.inr hne)

/-- A query text of the form `... FROM t`, with `t` a single token, is never parsed: with
no token before `FROM` there are two tokens, with one there are three and the middle one is
not `AS`, with more there are at least four. -/
theorem get_parsed_query_from (W : Nat) (s t : CStr) (ht : SP ∉ t) (hne : t ≠ []) :
    get_parsed_query W (s ++ SP :: ("FROM".toList ++ SP :: t)) = ParseResult.malformed := by
  have h1 : strtok_all (s ++ SP :: ("FROM".toList ++ SP :: t))
      = strtok_all s ++ ["FROM".toList, t] := by
    rw [strtok_all_append_sp, strtok_all_append_sp, strtok_all_no_sp t ht hne]
    congr 1
  unfold get_parsed_query
  rw [h1]
  rcases strtok_all s with _ | ⟨a, _ | ⟨b, _ | ⟨c, _ | ⟨d, l⟩⟩⟩⟩
  · rfl
  · have h : ¬ ("FROM".toList = "AS".toList) := by decide
    simp [h]
  · rfl
  · rfl
  · rfl

/-- A query text of the form `... FROM t AS v`, with `t` and `v` single tokens, is never
parsed: it has at least four tokens. -/
theorem get_parsed_query_from_as (W : Nat) (s t v : CStr) (ht : SP ∉ t) (ht0 : t ≠ [])
    (hv : SP ∉ v) (hv0 : v ≠ []) :
    get_parsed_query W
        (s ++ SP :: ("FROM".toList ++ SP :: (t ++ SP :: ("AS".toList ++ SP :: v))))
      = ParseResult.malformed := by
  have h1 : strtok_all
        (s ++ SP :: ("FROM".toList ++ SP :: (t ++ SP :: ("AS".toList ++ SP :: v))))
      = strtok_all s ++ ["FROM".toList, t, "AS".toList, v] := by
    rw [strtok_all_append_sp, strtok_all_append_sp, strtok_all_append_sp,
      strtok_all_append_sp, strtok_all_no_sp t ht ht0, strtok_all_no_sp v hv hv0]
    congr 1
  unfold get_parsed_query
  rw [h1]
  rcases strtok_all s with _ | ⟨a, _ | ⟨b, _ | ⟨c, _ | ⟨d, l⟩⟩⟩⟩ <;> rfl

/-- Every read query the booking layer builds for a seat token is rejected by
database_execute: it returns 1 with `ERROR` and leaves the data alone. -/
theorem database_execute_rquery (W : Nat) (db : database) (seat : CStr) :
    database_execute W db (rquery seat) = some (db, 1, DBMSG_ERR) := by
  have hd : (rquery seat).drop 4 = seat ++ SP :: ("FROM".toList ++ SP :: "DATA".toList) := rfl
  have hl : ¬ ((rquery seat).length < 5) := by
    have h : (rquery seat).length = 4 + (seat.length + 10) := by
      unfold rquery
      rw [List.append_assoc, List.length_append, List.length_append]
      rfl
    omega
  unfold database_execute
  rw [if_neg hl, hd, get_parsed_query_from W seat "DATA".toList (by decide) (by decide)]

/-- The counter query of db_get_id is rejected in the same way. -/
theorem database_execute_get_id_counter (W : Nat) (db : database) :
    database_execute W db "GET ID_COUNTER FROM CONFIG".toList = some (db, 1, DBMSG_ERR) := by
  have hd : ("GET ID_COUNTER FROM CONFIG".toList).drop 4
      = "ID_COUNTER".toList ++ SP :: ("FROM".toList ++ SP :: "CONFIG".toList) := by decide
  have hl : ¬ (("GET ID_COUNTER FROM CONFIG".toList).length < 5) := by decide
  unfold database_execute
  rw [if_neg hl, hd,
    get_parsed_query_from W "ID_COUNTER".toList "CONFIG".toList (by decide) (by decide)]

theorem db_get_id_fails (W : Nat) (db : database) : db_get_id W db = some (db, -1) := by
  unfold db_get_id
  rw [database_execute_get_id_counter]
  rfl

theorem read_loop_rquery (W : Nat) (expected : CStr) (db : database) (seat : CStr)
    (seats : List CStr) :
    read_loop W expected db ((seat :: seats).map rquery)
      = some (LoopResult.ret1 db (some DBMSG_ERR)) := by
  show read_loop W expected db (rquery seat :: seats.map rquery) = _
  unfold read_loop
  rw [database_execute_rquery]
  rfl

/-- On a request with at least one seat token db_book never reaches its write loop:
with the identifier `0` it returns 1 before the arrays exist, otherwise the first read is
rejected and the clean-up loop decides between a return of 1 and the end of the process. -/
theorem db_book_with_seat (W : Nat) (db : database) (request t0 seat : CStr)
    (seats : List CStr) (htok : strtok_all request = t0 :: seat :: seats) :
    db_book W db request
      = if t0 = "0".toList then some (db, 1, none)
        else if free_past_end_returns (seats.length + 1) then some (db, 1, some DBMSG_ERR)
        else none := by
  unfold db_book
  rw [htok]
  by_cases h0 : t0 = "0".toList
  · simp only [if_pos h0, db_get_id_fails]
    rw [if_pos ⟨h0, trivial⟩]
  · simp only [if_neg h0, false_and, if_false, read_loop_rquery, List.length_cons]
    rw [if_neg (fun h => h0 h.1)]

/-- On a request with at least one seat token db_unbook never reaches its write loop: the
first read is rejected and the clean-up loop decides between a return of 1 and the end of
the process. -/
theorem db_unbook_with_seat (W : Nat) (db : database) (request id seat : CStr)
    (seats : List CStr) (htok : strtok_all request = id :: seat :: seats) :
    db_unbook W db request
      = if free_past_end_returns (seats.length + 1) then some (db, 1, some DBMSG_ERR)
        else none := by
  unfold db_unbook
  rw [htok]
  simp only [read_loop_rquery, List.length_cons]

/-- Whatever db_book returns on a request with a seat token, it is 1 and the data are the
same as before. -/
theorem db_book_with_seat_ret (W : Nat) (db db1 : database) (request t0 seat : CStr)
    (seats : List CStr) (ret : Int) (r : Option CStr)
    (htok : strtok_all request = t0 :: seat :: seats)
    (h : db_book W db request = some (db1, ret, r)) : db1 = db ∧ ret = 1 := by
  rw [db_book_with_seat W db request t0 seat seats htok] at h
  split_ifs at h <;>
    simp only [Option.some.injEq, Prod.mk.injEq] at h <;>
    exact ⟨h.1.symm, h.2.1.symm⟩

/-- Whatever db_unbook returns on a request with a seat token, it is 1 with `ERROR` and
the data are the same as before. -/
theorem db_unbook_with_seat_ret (W : Nat) (db db1 : database) (request id seat : CStr)
    (seats : List CStr) (ret : Int) (r : Option CStr)
    (htok : strtok_all request = id :: seat :: seats)
    (h : db_unbook W db request = some (db1, ret, r)) :
    db1 = db ∧ ret = 1 ∧ r = some DBMSG_ERR := by
  rw [db_unbook_with_seat W db request id seat seats htok] at h
  split_ifs at h
  simp only [Option.some.injEq, Prod.mk.injEq] at h
  exact ⟨h.1.symm, h.2.1.symm, h.2.2.symm⟩

/-- On a request with exactly one seat token db_book returns 1 and the data are the same
as before: the word behind the one-pointer array lies in the block. -/
theorem db_book_one_seat (W : Nat) (db : database) (request t0 seat : CStr)
    (htok : strtok_all request = [t0, seat]) :
    ∃ r, db_book W db request = some (db, 1, r) := by
  rw [db_book_with_seat W db request t0 seat [] htok]
  by_cases h0 : t0 = "0".toList
  · exact ⟨none, by rw [if_pos h0]⟩
  · exact ⟨some DBMSG_ERR, by rw [if_neg h0]; rfl⟩

/-- On a request with exactly one seat token db_unbook returns 1 with `ERROR` and the
data are the same as before. -/
theorem db_unbook_one_seat (W : Nat) (db : database) (request id seat : CStr)
    (htok : strtok_all request = [id, seat]) :
    db_unbook W db request = some (db, 1, some DBMSG_ERR) := by
  rw [db_unbook_with_seat W db request id seat [] htok]
  rfl

/-- Whatever db_book returns, the data are the same as before. -/
theorem db_book_data (W : Nat) (db db1 : database) (request : CStr) (ret : Int)
    (r : Option CStr) (h : db_book W db request = some (db1, ret, r)) : db1 = db := by
  unfold db_book at h
  rcases htok : strtok_all request with _ | ⟨t0, _ | ⟨seat, seats⟩⟩
  · rw [htok] at h
    exact absurd h (by simp)
  · rw [htok] at h
    by_cases h0 : t0 = "0".toList
    · simp only [if_pos h0, db_get_id_fails] at h
      rw [if_pos ⟨h0, trivial⟩] at h
      simp only [Option.some.injEq, Prod.mk.injEq] at h
      exact h.1.symm
    · simp only [if_neg h0] at h
      rw [if_neg (fun h => h0 h.1)] at h
      simp only [List.map_nil, read_loop, write_loop, Option.some.injEq, Prod.mk.injEq] at h
      exact h.1.symm
  · have hfold : db_book W db request = some (db1, ret, r) := by
      unfold db_book
      exact h
    exact (db_book_with_seat_ret W db db1 request t0 seat seats ret r htok hfold).1

/-- The requests on which db_book returns 0 have no seat token. -/
theorem db_book_success_seats (W : Nat) (db db1 : database) (request t0 : CStr)
    (seats : List CStr) (r : Option CStr) (htok : strtok_all request = t0 :: seats)
    (h : db_book W db request = some (db1, 0, r)) : seats = [] := by
  rcases seats with _ | ⟨seat, seats⟩
  · rfl
  · exact absurd (db_book_with_seat_ret W db db1 request t0 seat seats 0 r htok h).2
      (by decide)

theorem db_unbook_data (W : Nat) (db db1 : database) (request : CStr) (ret : Int)
    (r : Option CStr) (h : db_unbook W db request = some (db1, ret, r)) : db1 = db := by
  rcases htok : strtok_all request with _ | ⟨t0, _ | ⟨seat, seats⟩⟩
  · unfold db_unbook at h
    rw [htok] at h
    exact absurd h (by simp)
  · unfold db_unbook at h
    rw [htok] at h
    simp only [List.map_nil, read_loop, write_loop, Option.some.injEq, Prod.mk.injEq] at h
    exact h.1.symm
  · exact (db_unbook_with_seat_ret W db db1 request t0 seat seats ret r htok h).1

theorem minted_by_nil (W : Nat) (db : database) (payload : CStr) :
    minted_by W db payload = [] := by
  unfold minted_by
  rcases strtok_all payload with _ | ⟨t0, l⟩
  · rfl
  · by_cases h0 : t0 = "0".toList
    · simp only [if_pos h0, db_get_id_fails]
      rfl
    · simp only [if_neg h0]

theorem run_requests_data (W : Nat) (db db1 : database) (reqs : List Request)
    (minted : List Int) (h : run_requests W db reqs = some (db1, minted)) :
    db1 = db ∧ minted = [] := by
  induction reqs generalizing db db1 minted with
  | nil =>
    simp only [run_requests, Option.some.injEq, Prod.mk.injEq] at h
    exact ⟨h.1.symm, h.2.symm⟩
  | cons req rest ih =>
    cases req with
    | book payload =>
      unfold run_requests at h
      rcases hb : db_book W db payload with _ | ⟨db2, ret, r⟩
      · rw [hb] at h
        exact absurd h (by simp)
      · rw [hb] at h
        have hdb2 := db_book_data W db db2 payload ret r hb
        subst hdb2
        dsimp only at h
        rcases hr : run_requests W db2 rest with _ | ⟨db3, m3⟩
        · rw [hr] at h
          exact absurd h (by simp)
        · rw [hr] at h
          obtain ⟨h3, hm3⟩ := ih db2 db3 m3 hr
          simp only [Option.map_some', Option.some.injEq, Prod.mk.injEq, minted_by_nil,
            List.nil_append] at h
          exact ⟨h.1.symm.trans h3, h.2.symm.trans hm3⟩
    | unbook payload =>
      unfold run_requests at h
      rcases hb : db_unbook W db payload with _ | ⟨db2, ret, r⟩
      · rw [hb] at h
        exact absurd h (by simp)
      · rw [hb] at h
        have hdb2 := db_unbook_data W db db2 payload ret r hb
        subst hdb2
        dsimp only at h
        exact ih db2 db1 minted h

/-! ## Lemmas on the status reply -/

theorem wrap32_natCast (n : Nat) (h : n < 2 ^ 31) : wrap32 (n : Int) = (n : Int) := by
  unfold wrap32
  norm_num at h ⊢
  omega

theorem status_field_err (id : Int) : status_field id DBMSG_ERR = DBMSG_ERR := by
  have h : atoi DBMSG_ERR = 0 := by decide
  unfold status_field
  rw [h]
  rfl

theorem status_loop_err (W : Nat) (id : Int) (db : database) (l : List Nat) (result : CStr) :
    status_loop W id db l result
      = some (db, result ++ (List.replicate l.length (SP :: DBMSG_ERR)).flatten) := by
  induction l generalizing result with
  | nil => simp [status_loop]
  | cons i rest ih =>
    unfold status_loop
    rw [database_execute_rquery]
    simp only [status_field_err, ih, List.length_cons, List.replicate_succ, List.flatten_cons,
      List.append_assoc]

/-- The text db_send_status builds: empty without seats, otherwise one `ERROR` for seat 0
and one more, after a space, for every further seat. -/
theorem db_send_status_err (W : Nat) (rows columns : Int) (db : database) (request : CStr) :
    db_send_status W rows columns db request
      = some (db, 0,
          if rows = 0 ∨ columns = 0 then []
          else DBMSG_ERR
            ++ (List.replicate ((wrap32 (rows * columns)).toNat - 1)
                (SP :: DBMSG_ERR)).flatten) := by
  unfold db_send_status
  by_cases h : rows = 0 ∨ columns = 0
  · rw [if_pos h, if_pos h]
  · rw [if_neg h, if_neg h]
    have hq : "GET 0 FROM DATA".toList = rquery "0".toList := rfl
    rw [hq, database_execute_rquery]
    simp only [status_field_err, status_loop_err, List.length_range']

theorem strtok_all_err_fields (n : Nat) :
    strtok_all (DBMSG_ERR ++ (List.replicate n (SP :: DBMSG_ERR)).flatten)
      = List.replicate (n + 1) DBMSG_ERR := by
  induction n with
  | zero => decide
  | succ n ih =>
    have h : DBMSG_ERR ++ (List.replicate (n + 1) (SP :: DBMSG_ERR)).flatten
        = DBMSG_ERR ++ SP :: (DBMSG_ERR ++ (List.replicate n (SP :: DBMSG_ERR)).flatten) := by
      simp [List.replicate_succ]
    have h1 : strtok_all DBMSG_ERR = [DBMSG_ERR] := by decide
    rw [h, strtok_all_append_sp, ih, h1]
    rfl

theorem intercalate_err_fields (n : Nat) :
    [SP].intercalate (List.replicate (n + 1) DBMSG_ERR)
      = DBMSG_ERR ++ (List.replicate n (SP :: DBMSG_ERR)).flatten := by
  induction n with
  | zero => decide
  | succ n ih =>
    have h : [SP].intercalate (List.replicate (n + 1 + 1) DBMSG_ERR)
        = DBMSG_ERR ++ SP :: [SP].intercalate (List.replicate (n + 1) DBMSG_ERR) := by
      simp [List.intercalate, List.replicate_succ, List.intersperse]
    rw [h, ih]
    simp [List.replicate_succ]

/-- Every field of the text db_send_status builds is `ERROR`. -/
theorem db_send_status_fields (W : Nat) (rows columns : Int) (db db1 : database)
    (request reply field : CStr) (ret : Int)
    (h : db_send_status W rows columns db request = some (db1, ret, reply))
    (hf : field ∈ strtok_all reply) : field = DBMSG_ERR := by
  rw [db_send_status_err] at h
  simp only [Option.some.injEq, Prod.mk.injEq] at h
  obtain ⟨-, -, hreply⟩ := h
  by_cases hz : rows = 0 ∨ columns = 0
  · rw [if_pos hz] at hreply
    rw [← hreply] at hf
    have hnil : strtok_all [] = [] := rfl
    rw [hnil] at hf
    exact absurd hf (List.not_mem_nil field)
  · rw [if_neg hz] at hreply
    rw [← hreply, strtok_all_err_fields] at hf
    exact List.eq_of_mem_replicate hf

theorem request_handler_book_ret1 (W : Nat) (rows columns : Int) (db db1 : database)
    (rest : CStr) (msg : Option CStr) (h : db_book W db rest = some (db1, 1, msg)) :
    request_handler W rows columns db (Char.ofNat 35 :: rest) = Outcome.exit_failure db1 true := by
  simp only [request_handler, if_pos, h, try_call]

theorem request_handler_unbook_ret1 (W : Nat) (rows columns : Int) (db db1 : database)
    (rest : CStr) (msg : Option CStr) (h : db_unbook W db rest = some (db1, 1, msg)) :
    request_handler W rows columns db (Char.ofNat 64 :: rest) = Outcome.exit_failure db1 true := by
  have h1 : ¬ (Char.ofNat 64 = Char.ofNat 35) := by decide
  simp only [request_handler, if_neg h1, if_pos, h, try_call]

/-! ## Lemmas on words, the file and the index -/

theorem word_length (W : Nat) (s : CStr) : (word W s).length = W := by
  simp [word]

theorem word_eq (W : Nat) (s : CStr) (h : s.length ≤ W) :
    word W s = s ++ List.replicate (W - s.length) NUL := by
  unfold word
  rw [List.take_append_eq_append_take, List.take_of_length_le h, List.take_replicate]
  congr 2
  omega

theorem cstr_append_nuls (s : CStr) (n : Nat) (hnul : NUL ∉ s) :
    cstr (s ++ List.replicate n NUL) = s := by
  unfold cstr
  induction s with
  | nil =>
    cases n with
    | zero => rfl
    | succ n => simp [List.replicate_succ]
  | cons c cs ih =>
    have hc : c ≠ NUL := fun hc => hnul (by simp [hc])
    have hcs : NUL ∉ cs := fun hm => hnul (by simp [hm])
    have hd : decide (c ≠ NUL) = true := decide_eq_true hc
    rw [List.cons_append, List.takeWhile_cons, hd, ih hcs]
    rfl

theorem cstr_word (W : Nat) (s : CStr) (h : s.length ≤ W) (hnul : NUL ∉ s) :
    cstr (word W s) = s := by
  rw [word_eq W s h, cstr_append_nuls s _ hnul]

theorem ff_not_mem_word (W : Nat) (s : CStr) (hff : BYTE_FF ∉ s) : BYTE_FF ∉ word W s := by
  intro hm
  have hm1 := List.mem_of_mem_take hm
  rcases List.mem_append.mp hm1 with h | h
  · exact hff h
  · have h2 := List.eq_of_mem_replicate h
    exact absurd h2 (by decide)

/-- Reading back a word that stands at `off`: database_read returns the string it was
made from, provided the string has no NUL and no 0xFF byte. -/
theorem database_read_word (W : Nat) (file rest : List Char) (off : Nat) (v : CStr)
    (hd : file.drop off = word W v ++ rest) (hvW : v.length ≤ W) (hnul : NUL ∉ v)
    (hff : BYTE_FF ∉ v) : database_read W file off = some v := by
  have ht : (file.drop off).take W = word W v := by
    rw [hd, List.take_left' (word_length W v)]
  unfold database_read
  simp only [ht, word_length, Nat.lt_irrefl, false_or, ff_not_mem_word W v hff, if_false,
    cstr_word W v hvW hnul]

theorem drop_write_at (file : List Char) (off : Nat) (data : List Char) :
    (write_at file off data).drop off = data ++ file.drop (off + data.length) := by
  unfold write_at
  have hl : (file.take off ++ List.replicate (off - file.length) NUL).length = off := by
    simp
    omega
  rw [List.append_assoc, List.drop_left' hl]

theorem index_table_key_offset_cons (t : List (CStr × Nat)) (key : CStr) (off : Nat) :
    index_table_key_offset ((key, off) :: t) key = some off := by
  simp [index_table_key_offset]

/-- After a record is appended to a file of whole records, the rebuilt index gives the
key of that record the offset of its value word. -/
theorem index_table_update_appended (W : Nat) (t : List (CStr × Nat)) (file : List Char)
    (k : CStr) (vw : List Char) (hW : 0 < W) (hkW : k.length ≤ W) (hnul : NUL ∉ k)
    (hvw : vw.length = W) (hrec : 2 * W ∣ file.length) :
    index_table_key_offset (index_table_update W t (file ++ word W k ++ vw)) k
      = some (file.length + W) := by
  obtain ⟨n, hn⟩ := hrec
  have hlen : (file ++ word W k ++ vw).length / (2 * W) = n + 1 := by
    have h1 : (file ++ word W k ++ vw).length = 2 * W * (n + 1) := by
      simp [word_length, hvw, hn]
      ring
    rw [h1, Nat.mul_div_cancel_left _ (by omega)]
  have hdrop : (file ++ word W k ++ vw).drop (2 * n * W) = word W k ++ vw := by
    have h2 : file.length = 2 * n * W := by rw [hn]; ring
    rw [List.append_assoc, List.drop_left' h2]
  unfold index_table_update
  rw [hlen, List.range_succ, List.map_append, List.reverse_append]
  simp only [List.map_cons, List.map_nil, List.reverse_cons, List.reverse_nil, List.nil_append,
    List.singleton_append, List.cons_append, hdrop, List.take_left' (word_length W k),
    cstr_word W k hkW hnul, index_table_key_offset_cons]
  congr 1
  rw [hn]
  ring

theorem get_parsed_query_set (W : Nat) (k v : CStr) (hk : k ≠ []) (hv : v ≠ [])
    (hkW : k.length ≤ W) (hvW : v.length ≤ W) (hksp : SP ∉ k) (hvsp : SP ∉ v) :
    get_parsed_query W (k ++ SP :: ("AS".toList ++ SP :: v)) = ParseResult.ok ⟨k, v⟩ := by
  have h1 : strtok_all (k ++ SP :: ("AS".toList ++ SP :: v)) = [k, "AS".toList, v] := by
    rw [strtok_all_append_sp, strtok_all_append_sp, strtok_all_no_sp k hksp hk,
      strtok_all_no_sp v hvsp hv]
    rfl
  unfold get_parsed_query
  rw [h1]
  have h2 : ¬ (k.length > W ∨ v.length > W ∨ "AS".toList ≠ "AS".toList) := by
    intro h
    rcases h with h | h | h
    · omega
    · omega
    · exact h rfl
  simp only [if_neg h2]

theorem get_parsed_query_get (W : Nat) (k : CStr) (hk : k ≠ []) (hkW : k.length ≤ W)
    (hksp : SP ∉ k) : get_parsed_query W k = ParseResult.ok ⟨k, []⟩ := by
  unfold get_parsed_query
  rw [strtok_all_no_sp k hksp hk]
  have h2 : ¬ (k.length > W) := by omega
  simp only [if_neg h2]

theorem database_execute_set (W : Nat) (db : database) (k v : CStr) (hk : k ≠ [])
    (hv : v ≠ []) (hkW : k.length ≤ W) (hvW : v.length ≤ W) (hksp : SP ∉ k) (hvsp : SP ∉ v) :
    database_execute W db ("SET ".toList ++ k ++ " AS ".toList ++ v)
      = some ((database_set W db ⟨k, v⟩).1, 0, (database_set W db ⟨k, v⟩).2) := by
  have hq : "SET ".toList ++ k ++ " AS ".toList ++ v
      = "SET ".toList ++ (k ++ SP :: ("AS".toList ++ SP :: v)) := by
    rw [List.append_assoc, List.append_assoc]
    rfl
  have hl : ¬ (("SET ".toList ++ (k ++ SP :: ("AS".toList ++ SP :: v))).length < 5) := by
    rw [List.length_append, List.length_append]
    have : "SET ".toList.length = 4 := rfl
    simp only [List.length_cons]
    omega
  have hd : ("SET ".toList ++ (k ++ SP :: ("AS".toList ++ SP :: v))).drop 4
      = k ++ SP :: ("AS".toList ++ SP :: v) := rfl
  have ht : ("SET ".toList ++ (k ++ SP :: ("AS".toList ++ SP :: v))).take 4 = "SET ".toList :=
    rfl
  rw [hq]
  unfold database_execute
  rw [if_neg hl, hd, get_parsed_query_set W k v hk hv hkW hvW hksp hvsp]
  simp only [ht, if_true]

theorem database_execute_get (W : Nat) (db : database) (k : CStr) (hk : k ≠ [])
    (hkW : k.length ≤ W) (hksp : SP ∉ k) :
    database_execute W db ("GET ".toList ++ k)
      = match database_get W db ⟨k, []⟩ with
        | none => some (db, 1, DBMSG_ERR)
        | some r => some (db, 0, r) := by
  have hl : ¬ (("GET ".toList ++ k).length < 5) := by
    rw [List.length_append]
    have h4 : "GET ".toList.length = 4 := rfl
    have hk1 : 0 < k.length := List.length_pos.mpr hk
    omega
  have hd : ("GET ".toList ++ k).drop 4 = k := rfl
  have ht : ("GET ".toList ++ k).take 4 = "GET ".toList := rfl
  have hne : ¬ ("GET ".toList = "SET ".toList) := by decide
  unfold database_execute
  rw [if_neg hl, hd, get_parsed_query_get W k hk hkW hksp]
  simp only [ht, if_neg hne, if_true]

/-- The stored value of `k` right after database_set has stored `v` under `k`, for a
file of whole records and a value without NUL and 0xFF bytes. -/
theorem database_get_after_set (W : Nat) (db : database) (k v : CStr) (hk : k ≠ [])
    (hkW : k.length ≤ W) (hvW : v.length ≤ W) (hknul : NUL ∉ k) (hvnul : NUL ∉ v)
    (hvff : BYTE_FF ∉ v) (hrec : 2 * W ∣ db.file.length) :
    database_get W (database_set W db ⟨k, v⟩).1 ⟨k, []⟩ = some v := by
  have hW : 0 < W := by
    have hk1 : 0 < k.length := List.length_pos.mpr hk
    omega
  unfold database_set
  rcases hoff : index_table_key_offset db.index_table k with _ | off
  · simp only [hoff]
    unfold database_get
    simp only [index_table_update_appended W db.index_table db.file k (word W v) hW hkW hknul
      (word_length W v) hrec]
    refine database_read_word W _ [] _ v ?_ hvW hvnul hvff
    rw [List.append_assoc, List.drop_append, List.drop_left' (word_length W k),
      List.append_nil]
  · simp only [hoff]
    unfold database_get
    simp only [hoff]
    exact database_read_word W _ _ off v (drop_write_at db.file off (word W v)) hvW hvnul hvff

/-- The round trip of `SET k AS v` and `GET k` through database_execute, for a file of
whole records, key and value non-empty, of at most `W` bytes, without space and NUL, and
a value without 0xFF byte: the SET replies `SUCCESS` and the GET replies `v`, whether or
not the key was in the index before. -/
theorem set_then_get (W : Nat) (db : database) (k v : CStr) (hk : k ≠ []) (hv : v ≠ [])
    (hkW : k.length ≤ W) (hvW : v.length ≤ W) (hksp : SP ∉ k) (hvsp : SP ∉ v)
    (hknul : NUL ∉ k) (hvnul : NUL ∉ v) (hvff : BYTE_FF ∉ v)
    (hrec : 2 * W ∣ db.file.length) :
    ∃ db1, database_execute W db ("SET ".toList ++ k ++ " AS ".toList ++ v)
        = some (db1, 0, DBMSG_SUCC)
      ∧ database_execute W db1 ("GET ".toList ++ k) = some (db1, 0, v) := by
  refine ⟨(database_set W db ⟨k, v⟩).1, ?_, ?_⟩
  · rw [database_execute_set W db k v hk hv hkW hvW hksp hvsp]
    have h2 : (database_set W db ⟨k, v⟩).2 = DBMSG_SUCC := by
      unfold database_set
      rcases index_table_key_offset db.index_table k with _ | off <;> rfl
    rw [h2]
  · rw [database_execute_get W _ k hk hkW hksp,
      database_get_after_set W db k v hk hkW hvW hknul hvnul hvff hrec]

theorem set_then_get_example :
    ∃ db1, database_execute 16 ⟨[], []⟩ ("SET ".toList ++ "ROWS".toList ++ " AS ".toList
          ++ "12".toList) = some (db1, 0, DBMSG_SUCC)
      ∧ database_execute 16 db1 ("GET ".toList ++ "ROWS".toList) = some (db1, 0, "12".toList) :=
  set_then_get 16 ⟨[], []⟩ "ROWS".toList "12".toList (by decide) (by decide) (by decide)
    (by decide) (by decide) (by decide) (by decide) (by decide) (by decide) (by decide)

/-! ## The claims -/

/-- C1. On an empty data file, `SET a AS v` with `v` the single byte 0xFF replies
`SUCCESS` and stores the record, and the `GET a` that follows returns 1 with the reply
`ERROR` instead of `v`: database_read takes the stored byte 0xFF for EOF. -/
theorem get_after_set_of_ff_is_error :
    database_execute 16 ⟨[], []⟩ ("SET a AS ".toList ++ [BYTE_FF])
        = some (db_a_ff, 0, DBMSG_SUCC)
      ∧ database_execute 16 db_a_ff "GET a".toList = some (db_a_ff, 1, DBMSG_ERR) := by
  constructor <;> decide

/-- C2. In the data file whose only record stores `7` under the key `0`, seat 0 is not
free; and whatever the data are, the book request `5 0 1 2` does not fail, it ends the
process: the first read is rejected, and the clean-up loop (cinemad.c:738) hands the word
behind the array of three pointers to `free`, so db_book is killed before it returns and
no reply is sent. With the single seat of `5 0` the call returns 1 and the data are the
same as before. -/
theorem db_book_conflict_is_killed :
    stored_value 16 db_seat0_taken "0".toList = some "7".toList
      ∧ free_past_end_returns 3 = false
      ∧ ∀ (W : Nat) (rows columns : Int) (db : database),
          db_book W db "5 0 1 2".toList = none
            ∧ request_handler W rows columns db "#5 0 1 2".toList = Outcome.null_deref
            ∧ db_book W db "5 0".toList = some (db, 1, some DBMSG_ERR) := by
  refine ⟨by decide, by decide, fun W rows columns db => ?_⟩
  have hk : db_book W db "5 0 1 2".toList = none :=
    db_book_with_seat W db "5 0 1 2".toList "5".toList "0".toList
      ["1".toList, "2".toList] (by decide)
  refine ⟨hk, ?_, ?_⟩
  · show request_handler W rows columns db (Char.ofNat 35 :: "5 0 1 2".toList) = _
    simp only [request_handler, if_pos, hk]
  · exact db_book_with_seat W db "5 0".toList "5".toList "0".toList [] (by decide)

/-- C4. The requests `#5 0` and `@5 0` end the process whatever the data are: db_book and
db_unbook return 1, the macro `try` calls exit with db_serializing_mutex held, and no
reply is sent. -/
theorem request_handler_exits_on_rejection (W : Nat) (rows columns : Int) (db : database) :
    request_handler W rows columns db "#5 0".toList = Outcome.exit_failure db true
      ∧ request_handler W rows columns db "@5 0".toList = Outcome.exit_failure db true := by
  constructor
  · obtain ⟨r, hr⟩ := db_book_one_seat W db "5 0".toList "5".toList "0".toList
      (by decide)
    exact request_handler_book_ret1 W rows columns db db "5 0".toList r hr
  · exact request_handler_unbook_ret1 W rows columns db db "5 0".toList (some DBMSG_ERR)
      (db_unbook_one_seat W db "5 0".toList "5".toList "0".toList (by decide))

/-- C5. After any sequence of book and unbook requests, a key whose stored value was `0`
before the sequence still has the stored value `0`, or the decimal text of an id minted
during the sequence. -/
theorem stored_zero_or_minted_after_run (W : Nat) (db db1 : database) (reqs : List Request)
    (minted : List Int) (key : CStr) (hrun : run_requests W db reqs = some (db1, minted))
    (hfree : stored_value W db key = some "0".toList) :
    stored_value W db1 key = some "0".toList
      ∨ ∃ id ∈ minted, stored_value W db1 key = some (fmt_d id) := by
  obtain ⟨hdb, -⟩ := run_requests_data W db db1 reqs minted hrun
  rw [hdb]
  exact Or.inl hfree

theorem stored_zero_or_minted_after_run_witness :
    (run_requests 16 db_seat0_free [Request.book "0 0".toList, Request.unbook "1 0".toList]
        = some (db_seat0_free, [])
      ∧ stored_value 16 db_seat0_free "0".toList = some "0".toList)
    ∧ (stored_value 16 db_seat0_free "0".toList = some "0".toList
      ∨ ∃ id ∈ ([] : List Int), stored_value 16 db_seat0_free "0".toList = some (fmt_d id)) :=
  ⟨⟨by decide, by decide⟩,
    stored_zero_or_minted_after_run 16 db_seat0_free db_seat0_free
      [Request.book "0 0".toList, Request.unbook "1 0".toList] [] "0".toList
      (by decide) (by decide)⟩

/-- C6. In the data file whose only record stores `0` under the key `ID_COUNTER`, the
stored counter is 0; and whatever the data are, db_get_id returns -1 and writes nothing,
and the book request `0 0`, whose id word is `0`, returns 1 with the data unchanged: no
id is minted. -/
theorem db_get_id_never_mints :
    stored_value 16 db_counter0 "ID_COUNTER".toList = some "0".toList
      ∧ ∀ (W : Nat) (db : database),
          db_get_id W db = some (db, -1)
            ∧ db_book W db "0 0".toList = some (db, 1, none) := by
  refine ⟨by decide, fun W db => ⟨db_get_id_fails W db, ?_⟩⟩
  have htok : strtok_all "0 0".toList = "0".toList :: ["0".toList] := by decide
  unfold db_book
  rw [htok]
  simp [db_get_id_fails]

/-- C7. In the data file whose only record stores `7` under the key `0`, that record
holds 7; and whatever the data are, the unbook request `7 0` returns 1 with `ERROR` and
leaves the data unchanged. -/
theorem db_unbook_held_seat_returns_1 :
    stored_value 16 db_seat0_taken "0".toList = some "7".toList
      ∧ ∀ (W : Nat) (db : database),
          db_unbook W db "7 0".toList = some (db, 1, some DBMSG_ERR) := by
  refine ⟨by decide, fun W db => ?_⟩
  exact db_unbook_one_seat W db "7 0".toList "7".toList "0".toList (by decide)

/-- C8. In the data file whose only record stores `7` under the key `0`, seat 0 does not
hold the id 1; and whatever the data are, the unbook request `1 0 1 2` is not rejected,
it ends the process: the first read is rejected, and the clean-up loop (cinemad.c:823)
hands the word behind the array of three pointers to `free`, so db_unbook is killed before
it returns and no reply is sent. With the single seat of `1 0` the call returns 1 and the
data are the same as before. -/
theorem db_unbook_mismatch_is_killed :
    stored_value 16 db_seat0_taken "0".toList = some "7".toList
      ∧ ∀ (W : Nat) (rows columns : Int) (db : database),
          db_unbook W db "1 0 1 2".toList = none
            ∧ request_handler W rows columns db "@1 0 1 2".toList = Outcome.null_deref
            ∧ db_unbook W db "1 0".toList = some (db, 1, some DBMSG_ERR) := by
  refine ⟨by decide, fun W rows columns db => ?_⟩
  have hk : db_unbook W db "1 0 1 2".toList = none :=
    db_unbook_with_seat W db "1 0 1 2".toList "1".toList "0".toList
      ["1".toList, "2".toList] (by decide)
  refine ⟨hk, ?_, ?_⟩
  · show request_handler W rows columns db (Char.ofNat 64 :: "1 0 1 2".toList) = _
    have h1 : ¬ (Char.ofNat 64 = Char.ofNat 35) := by decide
    simp only [request_handler, if_neg h1, if_pos, hk]
  · exact db_unbook_one_seat W db "1 0".toList "1".toList "0".toList (by decide)

/-- C9. In the data file whose only record stores `0` under the key `0`, seat 0 holds 0;
and for every geometry whose product `rows * columns` is an `int`, every data file and
every payload, the status reply is `rows * columns` copies of `ERROR` separated by single
spaces: no field is `0`, `1` or `2`, whatever the seats hold. -/
theorem db_send_status_fields_are_error :
    stored_value 16 db_seat0_free "0".toList = some "0".toList
      ∧ ∀ (W : Nat) (rows columns : Nat) (db : database) (request : CStr),
          rows * columns < 2 ^ 31 →
          db_send_status W rows columns db request
            = some (db, 0, [SP].intercalate (List.replicate (rows * columns) DBMSG_ERR)) := by
  refine ⟨by decide, fun W rows columns db request hbound => ?_⟩
  rw [db_send_status_err]
  by_cases hz : rows * columns = 0
  · have h : (rows : Int) = 0 ∨ (columns : Int) = 0 := by
      rcases Nat.mul_eq_zero.mp hz with h | h
      · exact Or.inl (by exact_mod_cast h)
      · exact Or.inr (by exact_mod_cast h)
    rw [if_pos h, hz]
    rfl
  · have h : ¬ ((rows : Int) = 0 ∨ (columns : Int) = 0) := by
      intro h
      apply hz
      rcases h with h | h
      · have h1 : rows = 0 := by exact_mod_cast h
        rw [h1, Nat.zero_mul]
      · have h1 : columns = 0 := by exact_mod_cast h
        rw [h1, Nat.mul_zero]
    have hn : (wrap32 ((rows : Int) * (columns : Int))).toNat = rows * columns := by
      rw [← Nat.cast_mul, wrap32_natCast (rows * columns) hbound, Int.toNat_natCast]
    obtain ⟨n, hn1⟩ : ∃ n, rows * columns = n + 1 := ⟨rows * columns - 1, by omega⟩
    rw [if_neg h, hn, hn1, intercalate_err_fields]
    rfl

theorem db_send_status_fields_are_error_witness :
    2 * 3 < 2 ^ 31
      ∧ db_send_status 16 2 3 db_seat0_free "5".toList
          = some (db_seat0_free, 0, "ERROR ERROR ERROR ERROR ERROR ERROR".toList) :=
  ⟨by decide,
    db_send_status_fields_are_error.2 16 2 3 db_seat0_free "5".toList (by decide)⟩

/-- C10. In the data file whose only record stores `7` under the key `0`, seat 0 holds
a non-zero value; and for every geometry and every data file, the status request with an
empty payload returns a reply with no field `1` and no field `2`: a seat that is held is
not reported as `2`. -/
theorem db_send_status_no_id_never_two :
    stored_value 16 db_seat0_taken "0".toList = some "7".toList
      ∧ ∀ (W : Nat) (rows columns : Int) (db : database),
          ∃ reply, db_send_status W rows columns db [] = some (db, 0, reply)
            ∧ "1".toList ∉ strtok_all reply ∧ "2".toList ∉ strtok_all reply := by
  refine ⟨by decide, fun W rows columns db =>
    ⟨_, db_send_status_err W rows columns db [], ?_, ?_⟩⟩
  · intro hmem
    exact absurd (db_send_status_fields W rows columns db db [] _ "1".toList 0
      (db_send_status_err W rows columns db []) hmem) (by decide)
  · intro hmem
    exact absurd (db_send_status_fields W rows columns db db [] _ "2".toList 0
      (db_send_status_err W rows columns db []) hmem) (by decide)

/-! ## Lemmas on the query layer -/

/-- The parser in terms of the shape test: without tokens it dereferences NULL, otherwise
it returns 1 exactly on the token lists that are not of the accepted shape. -/
theorem get_parsed_query_malformed_iff (W : Nat) (q : CStr) (hne : strtok_all q ≠ []) :
    get_parsed_query W q = ParseResult.malformed
      ↔ shape_accepted W (strtok_all q) = false := by
  unfold get_parsed_query
  rcases h : strtok_all q with _ | ⟨a, _ | ⟨b, _ | ⟨c, _ | ⟨d, l⟩⟩⟩⟩
  · exact absurd h hne
  · by_cases h1 : a.length > W
    · have h2 : ¬ a.length ≤ W := by omega
      simp [shape_accepted, h1, h2]
    · have h2 : a.length ≤ W := by omega
      simp [shape_accepted, h1, h2]
  · simp [shape_accepted]
  · by_cases h1 : a.length > W ∨ c.length > W ∨ b ≠ "AS".toList
    · dsimp only
      rw [if_pos h1]
      simp only [shape_accepted, true_iff]
      rcases h1 with h1 | h1 | h1
      · have h2 : ¬ a.length ≤ W := by omega
        simp [h2]
      · have h2 : ¬ c.length ≤ W := by omega
        simp [h2]
      · simp only [Bool.and_eq_false_imp, decide_eq_true_eq, decide_eq_false_iff_not]
        intro _ hb
        exact h1 hb
    · dsimp only
      rw [if_neg h1]
      have ha : a.length ≤ W := by
        by_contra hc
        exact h1 (Or.inl (by omega))
      have hc : c.length ≤ W := by
        by_contra hc
        exact h1 (Or.inr (Or.inl (by omega)))
      have hb : b = "AS".toList := by
        by_contra hc
        exact h1 (Or.inr (Or.inr hc))
      simp [shape_accepted, ha, hc, hb]
  · simp [shape_accepted]

theorem get_parsed_query_ok_of_shape (W : Nat) (q : CStr)
    (h : shape_accepted W (strtok_all q) = true) :
    ∃ pq, get_parsed_query W q = ParseResult.ok pq := by
  unfold get_parsed_query
  generalize strtok_all q = toks at h
  rcases toks with _ | ⟨a, _ | ⟨b, _ | ⟨c, _ | ⟨d, l⟩⟩⟩⟩
  · simp [shape_accepted] at h
  · simp only [shape_accepted, decide_eq_true_eq] at h
    have h1 : ¬ a.length > W := by omega
    exact ⟨_, if_neg h1⟩
  · simp [shape_accepted] at h
  · simp only [shape_accepted, Bool.and_eq_true, decide_eq_true_eq] at h
    have h1 : ¬ (a.length > W ∨ c.length > W ∨ b ≠ "AS".toList) := by
      intro hc
      rcases hc with hc | hc | hc
      · omega
      · omega
      · exact hc h.2
    exact ⟨_, if_neg h1⟩
  · simp [shape_accepted] at h

/-- On a text shorter than five bytes, and on a text whose part after the fourth byte has
tokens of a shape that is not accepted, database_execute returns 1 with `ERROR` and leaves
the data alone. -/
theorem database_execute_error (W : Nat) (db : database) (q : CStr)
    (hbad : q.length < 5 ∨ (strtok_all (q.drop 4) ≠ []
      ∧ shape_accepted W (strtok_all (q.drop 4)) = false)) :
    database_execute W db q = some (db, 1, DBMSG_ERR) := by
  unfold database_execute
  by_cases hl : q.length < 5
  · rw [if_pos hl]
  · rw [if_neg hl]
    rcases hbad with h | ⟨hne, hsh⟩
    · exact absurd h hl
    · rw [(get_parsed_query_malformed_iff W (q.drop 4) hne).mpr hsh]

/-- On a text of at least five bytes whose part after the fourth byte has tokens of the
accepted shape and whose first four bytes are neither `SET ` nor `GET `, database_execute
returns 0 with `FAILURE` and leaves the data alone. -/
theorem database_execute_other_op (W : Nat) (db : database) (q : CStr)
    (hl : 5 ≤ q.length) (hsh : shape_accepted W (strtok_all (q.drop 4)) = true)
    (hset : q.take 4 ≠ "SET ".toList) (hget : q.take 4 ≠ "GET ".toList) :
    database_execute W db q = some (db, 0, DBMSG_FAIL) := by
  obtain ⟨pq, hpq⟩ := get_parsed_query_ok_of_shape W (q.drop 4) hsh
  unfold database_execute
  have hl1 : ¬ q.length < 5 := by omega
  rw [if_neg hl1, hpq]
  simp only [if_neg hset, if_neg hget]

/-- The reply step on a request that is not dispatched to the booking layer: it sends
whatever database_execute replies and releases the lock. -/
theorem request_handler_raw (W : Nat) (rows columns : Int) (db db1 : database)
    (buff msg : CStr) (ret : Int)
    (hfirst : ∀ c rest, buff = c :: rest →
      c ≠ Char.ofNat 35 ∧ c ≠ Char.ofNat 64 ∧ c ≠ Char.ofNat 126)
    (hret : ret = 0 ∨ ret = 1)
    (h : database_execute W db buff = some (db1, ret, msg)) :
    request_handler W rows columns db buff = Outcome.sent db1 (some msg) false := by
  have hne : ¬ (ret = -1) := by omega
  rcases buff with _ | ⟨c, rest⟩
  · simp only [request_handler, h, try_call, if_neg hne]
  · obtain ⟨h1, h2, h3⟩ := hfirst c rest rfl
    simp only [request_handler, if_neg h1, if_neg h2, if_neg h3, h, try_call, if_neg hne]

/-! ## Lemmas on the lock calls and on the file after database_set -/

/-- The calls of database_set leave no hold, on the table lock or on any key lock. -/
theorem database_set_lock_calls_balanced (db : database) (parsed_query : query)
    (key : CStr) :
    table_holds (database_set_lock_calls db parsed_query) = 0
      ∧ key_holds key (database_set_lock_calls db parsed_query) = 0 := by
  unfold database_set_lock_calls
  rcases index_table_key_offset db.index_table parsed_query.key with _ | off
  · exact ⟨by simp [table_holds], by simp [key_holds]⟩
  · refine ⟨by simp [table_holds], ?_⟩
    by_cases h : parsed_query.key = key <;> simp [key_holds, h]

/-- On a key that is present and read without fault, database_get releases the key lock
and then the table lock, and leaves no hold. -/
theorem database_get_lock_calls_present (W : Nat) (db : database) (parsed_query : query)
    (key : CStr) (offset : Nat) (r : CStr)
    (hoff : index_table_key_offset db.index_table parsed_query.key = some offset)
    (hread : database_read W db.file offset = some r) :
    database_get_lock_calls W db parsed_query
        = [LockCall.table_rdlock, LockCall.key_rdlock parsed_query.key,
            LockCall.key_unlock parsed_query.key, LockCall.table_unlock]
      ∧ table_holds (database_get_lock_calls W db parsed_query) = 0
      ∧ key_holds key (database_get_lock_calls W db parsed_query) = 0 := by
  have h : database_get_lock_calls W db parsed_query
        = [LockCall.table_rdlock, LockCall.key_rdlock parsed_query.key,
            LockCall.key_unlock parsed_query.key, LockCall.table_unlock] := by
    unfold database_get_lock_calls
    simp only [hoff, hread]
  rw [h]
  refine ⟨rfl, by simp [table_holds], ?_⟩
  by_cases hk : parsed_query.key = key <;> simp [key_holds, hk]

theorem index_entry_of_key_offset (t : List (CStr × Nat)) (key : CStr) (off : Nat)
    (h : index_table_key_offset t key = some off) : ∃ e ∈ t, e.2 = off := by
  unfold index_table_key_offset at h
  rcases hf : t.find? (fun e => e.1 = key) with _ | e
  · rw [hf] at h
    simp at h
  · rw [hf] at h
    simp only [Option.map_some', Option.some.injEq] at h
    exact ⟨e, List.mem_of_find?_eq_some hf, h⟩

theorem write_at_inside (file : List Char) (off : Nat) (data : List Char)
    (h : off + data.length ≤ file.length) :
    (write_at file off data).length = file.length
      ∧ (write_at file off data).take off = file.take off
      ∧ (write_at file off data).drop (off + data.length) = file.drop (off + data.length) := by
  have h0 : off - file.length = 0 := by omega
  have hl : (file.take off).length = off := by
    rw [List.length_take]
    omega
  unfold write_at
  rw [h0, List.replicate_zero, List.append_nil]
  refine ⟨?_, ?_, ?_⟩
  · simp only [List.length_append, List.length_take, List.length_drop]
    omega
  · rw [List.append_assoc, List.take_left' hl]
  · have hl2 : (file.take off ++ data).length = off + data.length := by
      rw [List.length_append, hl]
    rw [List.drop_left' hl2]

/-- Every entry the index rebuild adds is the offset of a value word inside the file. -/
theorem index_table_update_entries (W : Nat) (hW : 0 < W) (t : List (CStr × Nat))
    (file : List Char) (e : CStr × Nat) (he : e ∈ index_table_update W t file) :
    e ∈ t ∨ (e.2 % (2 * W) = W ∧ e.2 + W ≤ file.length) := by
  unfold index_table_update at he
  rcases List.mem_append.mp he with h | h
  · right
    rw [List.mem_reverse, List.mem_map] at h
    obtain ⟨i, hi, hie⟩ := h
    rw [List.mem_range] at hi
    rw [← hie]
    have h1 : (2 * i + 1) * W = W + 2 * W * i := by ring
    have h2 : (i + 1) * (2 * W) ≤ file.length := by
      have h3 : (i + 1) ≤ file.length / (2 * W) := hi
      calc (i + 1) * (2 * W) ≤ file.length / (2 * W) * (2 * W) :=
            Nat.mul_le_mul_right _ h3
        _ ≤ file.length := Nat.div_mul_le_self _ _
    constructor
    · show (2 * i + 1) * W % (2 * W) = W
      rw [h1, Nat.add_mul_mod_self_left, Nat.mod_eq_of_lt (by omega)]
    · show (2 * i + 1) * W + W ≤ file.length
      have h4 : (2 * i + 1) * W + W = (i + 1) * (2 * W) := by ring
      rw [h4]
      exact h2
  · exact Or.inl h

/-- The index that the scan of a file builds from nothing points into that file. -/
theorem index_in_file_scan (W : Nat) (hW : 0 < W) (file : List Char) :
    index_in_file W ⟨file, index_table_update W [] file⟩ := by
  intro e he
  rcases index_table_update_entries W hW [] file e he with h | h
  · exact absurd h (List.not_mem_nil e)
  · exact h

/-- The statement that the index points into the file is kept by database_set. -/
theorem index_in_file_set (W : Nat) (hW : 0 < W) (db : database) (parsed_query : query)
    (hidx : index_in_file W db) : index_in_file W (database_set W db parsed_query).1 := by
  rcases hoff : index_table_key_offset db.index_table parsed_query.key with _ | off
  · have hset : (database_set W db parsed_query).1
        = ⟨db.file ++ word W parsed_query.key ++ word W parsed_query.value,
            index_table_update W db.index_table
              (db.file ++ word W parsed_query.key ++ word W parsed_query.value)⟩ := by
      unfold database_set
      simp only [hoff]
    rw [hset]
    intro e he
    rcases index_table_update_entries W hW db.index_table _ e he with h | h
    · obtain ⟨h1, h2⟩ := hidx e h
      refine ⟨h1, ?_⟩
      show e.2 + W ≤ (db.file ++ word W parsed_query.key ++ word W parsed_query.value).length
      rw [List.length_append, List.length_append]
      omega
    · exact h
  · have hset : (database_set W db parsed_query).1
        = ⟨write_at db.file off (word W parsed_query.value), db.index_table⟩ := by
      unfold database_set
      simp only [hoff]
    obtain ⟨e0, he0, heoff⟩ := index_entry_of_key_offset db.index_table _ off hoff
    have hin : off + (word W parsed_query.value).length ≤ db.file.length := by
      rw [word_length, ← heoff]
      exact (hidx e0 he0).2
    rw [hset]
    intro e he
    obtain ⟨h1, h2⟩ := hidx e he
    refine ⟨h1, ?_⟩
    show e.2 + W ≤ (write_at db.file off (word W parsed_query.value)).length
    rw [(write_at_inside db.file off _ hin).1]
    exact h2

/-! ## Lemmas on lexicographical_comparison -/

theorem schar_injective (a b : Char) (ha : a.toNat < 256) (hb : b.toNat < 256)
    (h : schar a = schar b) : a = b := by
  have h1 : a.toNat = b.toNat := by
    unfold schar at h
    split_ifs at h <;> omega
  rw [← Char.ofNat_toNat a, ← Char.ofNat_toNat b, h1]

theorem lexicographical_comparison_range (a b : CStr) :
    lexicographical_comparison a b = -1 ∨ lexicographical_comparison a b = 0
      ∨ lexicographical_comparison a b = 1 := by
  induction a generalizing b with
  | nil => cases b <;> simp [lexicographical_comparison]
  | cons x as ih =>
    cases b with
    | nil => simp [lexicographical_comparison]
    | cons y bs =>
      unfold lexicographical_comparison
      split_ifs
      · simp
      · simp
      · exact ih bs

theorem lexicographical_comparison_neg (a b : CStr) :
    lexicographical_comparison a b = - lexicographical_comparison b a := by
  induction a generalizing b with
  | nil => cases b <;> simp [lexicographical_comparison]
  | cons x as ih =>
    cases b with
    | nil => simp [lexicographical_comparison]
    | cons y bs =>
      unfold lexicographical_comparison
      split_ifs <;> first | omega | rfl | exact ih bs

theorem lexicographical_comparison_eq_zero (a b : CStr) (ha : is_cstring a)
    (hb : is_cstring b) : lexicographical_comparison a b = 0 ↔ a = b := by
  induction a generalizing b with
  | nil => cases b <;> simp [lexicographical_comparison]
  | cons x as ih =>
    cases b with
    | nil => simp [lexicographical_comparison]
    | cons y bs =>
      have hx := (ha x (List.mem_cons_self x as)).2
      have hy := (hb y (List.mem_cons_self y bs)).2
      have has : is_cstring as := fun c hc => ha c (List.mem_cons_of_mem x hc)
      have hbs : is_cstring bs := fun c hc => hb c (List.mem_cons_of_mem y hc)
      unfold lexicographical_comparison
      split_ifs with h1 h2
      · constructor
        · intro h
          exact absurd h (by decide)
        · intro h
          rw [(List.cons.inj h).1] at h1
          omega
      · constructor
        · intro h
          exact absurd h (by decide)
        · intro h
          rw [(List.cons.inj h).1] at h2
          omega
      · have hxy : x = y := schar_injective x y hx hy (by omega)
        rw [ih bs has hbs, hxy]
        constructor
        · intro h
          rw [h]
        · intro h
          exact (List.cons.inj h).2

theorem lexicographical_comparison_lt (a b : CStr) (ha : is_cstring a) (hb : is_cstring b) :
    lexicographical_comparison a b = -1 ↔ List.Lex char_lt a b := by
  induction a generalizing b with
  | nil =>
    cases b with
    | nil =>
      simp only [lexicographical_comparison]
      constructor
      · intro h
        exact absurd h (by decide)
      · intro h
        exact absurd h (List.Lex.not_nil_right _ _)
    | cons y bs =>
      simp only [lexicographical_comparison, true_iff]
      exact List.Lex.nil
  | cons x as ih =>
    cases b with
    | nil =>
      simp only [lexicographical_comparison]
      constructor
      · intro h
        exact absurd h (by decide)
      · intro h
        exact absurd h (List.Lex.not_nil_right _ _)
    | cons y bs =>
      have hx := (ha x (List.mem_cons_self x as)).2
      have hy := (hb y (List.mem_cons_self y bs)).2
      have has : is_cstring as := fun c hc => ha c (List.mem_cons_of_mem x hc)
      have hbs : is_cstring bs := fun c hc => hb c (List.mem_cons_of_mem y hc)
      unfold lexicographical_comparison
      split_ifs with h1 h2
      · simp only [true_iff]
        exact List.Lex.rel h1
      · constructor
        · intro h
          exact absurd h (by decide)
        · intro h
          cases h with
          | cons h' => omega
          | rel h' =>
            unfold char_lt at h'
            omega
      · have hxy : x = y := schar_injective x y hx hy (by omega)
        subst hxy
        rw [ih bs has hbs]
        constructor
        · intro h
          exact List.Lex.cons h
        · intro h
          cases h with
          | cons h' => exact h'
          | rel h' =>
            unfold char_lt at h'
            omega

theorem lexicographical_comparison_trans (a b c : CStr)
    (hab : lexicographical_comparison a b = -1) (hbc : lexicographical_comparison b c = -1) :
    lexicographical_comparison a c = -1 := by
  induction a generalizing b c with
  | nil =>
    cases c with
    | nil =>
      cases b <;> simp [lexicographical_comparison] at hab hbc
    | cons z cs => simp [lexicographical_comparison]
  | cons x as ih =>
    cases b with
    | nil => simp [lexicographical_comparison] at hab
    | cons y bs =>
      cases c with
      | nil => simp [lexicographical_comparison] at hbc
      | cons z cs =>
        unfold lexicographical_comparison at hab hbc ⊢
        split_ifs at hab hbc ⊢ <;> first | rfl | omega | exact ih bs cs hab hbc

/-! ## Lemmas on load_table -/

theorem load_table_scan_record (pos : Nat) (k v : CStr) (rest : List Char) (t : avl_tree)
    (hk : k.length ≤ MAXLEN) (hnul : NUL ∉ k) (hff : BYTE_FF ∉ k) :
    load_table_scan pos (word MAXLEN k ++ word MAXLEN v ++ rest) t
      = load_table_scan (pos + 2 * MAXLEN) rest (avl_tree_insert t k (pos + MAXLEN)) := by
  have htake : (word MAXLEN k ++ word MAXLEN v ++ rest).take MAXLEN = word MAXLEN k := by
    rw [List.append_assoc, List.take_left' (word_length MAXLEN k)]
  have hdrop : (word MAXLEN k ++ word MAXLEN v ++ rest).drop (2 * MAXLEN) = rest := by
    have hl : (word MAXLEN k ++ word MAXLEN v).length = 2 * MAXLEN := by
      rw [List.length_append, word_length, word_length]
      omega
    rw [List.drop_left' hl]
  have hne : ¬ (word MAXLEN k ++ word MAXLEN v ++ rest = []) := by
    intro h
    have hl := congrArg List.length h
    rw [List.length_append, List.length_append, word_length, word_length] at hl
    simp [MAXLEN] at hl
  have hok : ¬ ((word MAXLEN k).length < MAXLEN ∨ BYTE_FF ∈ word MAXLEN k) := by
    intro h
    rcases h with h | h
    · rw [word_length] at h
      omega
    · exact ff_not_mem_word MAXLEN k hff h
  rw [load_table_scan, dif_neg hne, htake, if_neg hok, hdrop, cstr_word MAXLEN k hk hnul]

theorem avl_tree_insert_new (t : avl_tree) (key : CStr) (record : Nat)
    (hnew : ∀ e ∈ t, lexicographical_comparison key e.1 ≠ 0) :
    avl_tree_insert t key record = t ++ [(key, record)] := by
  induction t with
  | nil => rfl
  | cons e t ih =>
    have h1 : lexicographical_comparison key e.1 ≠ 0 := hnew e (List.mem_cons_self e t)
    have h2 : ∀ e' ∈ t, lexicographical_comparison key e'.1 ≠ 0 :=
      fun e' he' => hnew e' (List.mem_cons_of_mem e he')
    unfold avl_tree_insert
    rw [if_neg h1, ih h2]
    rfl

/-- The scan of a file of whole records, whose keys are C strings of at most MAXLEN bytes
without the byte 0xFF and pairwise distinct, appends the entries of the records to the
index in file order. -/
theorem load_table_scan_records (pos : Nat) (records : List (CStr × CStr)) (t : avl_tree)
    (hkeys : ∀ r ∈ records, r.1.length ≤ MAXLEN ∧ is_cstring r.1 ∧ BYTE_FF ∉ r.1)
    (hdist : (records.map Prod.fst).Nodup)
    (ht : ∀ e ∈ t, is_cstring e.1 ∧ e.1 ∉ records.map Prod.fst) :
    load_table_scan pos (records_file records) t = some (t ++ record_entries pos records) := by
  induction records generalizing pos t with
  | nil =>
    have h : records_file [] = [] := rfl
    rw [h, load_table_scan, dif_pos rfl]
    simp [record_entries]
  | cons r rs ih =>
    obtain ⟨hlen, hcs, hff⟩ := hkeys r (List.mem_cons_self r rs)
    have hnul : NUL ∉ r.1 := fun h => (hcs NUL h).1 rfl
    have hfile : records_file (r :: rs)
        = word MAXLEN r.1 ++ word MAXLEN r.2 ++ records_file rs := by
      simp [records_file]
    have hnew : ∀ e ∈ t, lexicographical_comparison r.1 e.1 ≠ 0 := by
      intro e he h
      have heq := (lexicographical_comparison_eq_zero r.1 e.1 hcs (ht e he).1).mp h
      apply (ht e he).2
      rw [← heq]
      exact List.mem_cons_self _ _
    have hdist' : (rs.map Prod.fst).Nodup := (List.nodup_cons.mp hdist).2
    have hnot : r.1 ∉ rs.map Prod.fst := (List.nodup_cons.mp hdist).1
    rw [hfile, load_table_scan_record pos r.1 r.2 _ t hlen hnul hff,
      avl_tree_insert_new t r.1 _ hnew,
      ih (pos + 2 * MAXLEN) (t ++ [(r.1, pos + MAXLEN)])
        (fun r' hr' => hkeys r' (List.mem_cons_of_mem r hr')) hdist']
    · simp [record_entries]
    · intro e he
      rcases List.mem_append.mp he with h | h
      · refine ⟨(ht e h).1, fun hm => (ht e h).2 ?_⟩
        exact List.mem_cons_of_mem _ hm
      · have he' : e = (r.1, pos + MAXLEN) := by simpa using h
        rw [he']
        exact ⟨hcs, hnot⟩

theorem record_entries_length (pos : Nat) (records : List (CStr × CStr)) :
    (record_entries pos records).length = records.length := by
  induction records generalizing pos with
  | nil => rfl
  | cons r rs ih => simp [record_entries, ih]

theorem record_entries_get (pos : Nat) (records : List (CStr × CStr)) (i : Nat)
    (r : CStr × CStr) (h : records[i]? = some r) :
    (record_entries pos records)[i]? = some (r.1, pos + (2 * i + 1) * MAXLEN) := by
  induction records generalizing pos i with
  | nil => simp at h
  | cons r0 rs ih =>
    cases i with
    | zero =>
      simp only [List.getElem?_cons_zero, Option.some.injEq] at h
      subst h
      simp [record_entries]
    | succ j =>
      simp only [List.getElem?_cons_succ] at h
      simp only [record_entries, List.getElem?_cons_succ]
      rw [ih (pos + 2 * MAXLEN) j h]
      congr 2
      ring

/-- For a file of whole records whose keys are C strings of at most MAXLEN bytes without
the byte 0xFF and pairwise distinct, load_table returns 0 and the index it builds has one
entry per record, in file order, the key of record `i` with the offset
`(2 * i + 1) * MAXLEN`. -/
theorem load_table_records (records : List (CStr × CStr))
    (hkeys : ∀ r ∈ records, r.1.length ≤ MAXLEN ∧ is_cstring r.1 ∧ BYTE_FF ∉ r.1)
    (hdist : (records.map Prod.fst).Nodup) :
    load_table (records_file records) [] = some (record_entries 0 records)
      ∧ (record_entries 0 records).length = records.length
      ∧ ∀ (i : Nat) (r : CStr × CStr), records[i]? = some r →
          (record_entries 0 records)[i]? = some (r.1, (2 * i + 1) * MAXLEN) := by
  refine ⟨?_, record_entries_length 0 records, fun i r h => ?_⟩
  · unfold load_table
    rw [load_table_scan_records 0 records [] hkeys hdist
      (fun e he => absurd he (List.not_mem_nil e))]
    rfl
  · rw [record_entries_get 0 records i r h, Nat.zero_add]

/-! ## The claims, continued -/

/-- C11, counterexample. The request `FOO k` starts with none of `#`, `@`, `~` and is no
GET, SET or ADD query, and the reply sent is `FAILURE`, which is not `ERROR`. -/
theorem unknown_operation_replies_failure :
    request_handler 16 1 1 ⟨[], []⟩ "FOO k".toList
        = Outcome.sent ⟨[], []⟩ (some DBMSG_FAIL) false
      ∧ DBMSG_FAIL ≠ DBMSG_ERR := by
  constructor <;> decide

/-- C11, amended. For a request whose first byte is none of `#`, `@`, `~` (the empty
request included): when the request is shorter than five bytes, or the text after its
first four bytes has at least one token and its tokens are not of the accepted shape, the
reply sent is exactly `ERROR`; when the request has at least five bytes, the tokens are of
the accepted shape and the first four bytes are neither `SET ` nor `GET `, the reply sent
is exactly `FAILURE`. In both cases the data are unchanged and the lock is released. -/
theorem request_handler_error_or_failure (W : Nat) (rows columns : Int) (db : database)
    (buff : CStr) (h35 : buff.head? ≠ some (Char.ofNat 35))
    (h64 : buff.head? ≠ some (Char.ofNat 64)) (h126 : buff.head? ≠ some (Char.ofNat 126)) :
    ((buff.length < 5 ∨ (strtok_all (buff.drop 4) ≠ []
          ∧ shape_accepted W (strtok_all (buff.drop 4)) = false)) →
        request_handler W rows columns db buff = Outcome.sent db (some DBMSG_ERR) false)
      ∧ (5 ≤ buff.length → shape_accepted W (strtok_all (buff.drop 4)) = true →
          buff.take 4 ≠ "SET ".toList → buff.take 4 ≠ "GET ".toList →
        request_handler W rows columns db buff = Outcome.sent db (some DBMSG_FAIL) false) := by
  have hfirst : ∀ c rest, buff = c :: rest →
      c ≠ Char.ofNat 35 ∧ c ≠ Char.ofNat 64 ∧ c ≠ Char.ofNat 126 := by
    intro c rest hb
    subst hb
    refine ⟨fun h => h35 ?_, fun h => h64 ?_, fun h => h126 ?_⟩ <;> simp [h]
  constructor
  · intro hbad
    exact request_handler_raw W rows columns db db buff DBMSG_ERR 1 hfirst (Or.inr rfl)
      (database_execute_error W db buff hbad)
  · intro hl hsh hset hget
    exact request_handler_raw W rows columns db db buff DBMSG_FAIL 0 hfirst (Or.inl rfl)
      (database_execute_other_op W db buff hl hsh hset hget)

theorem request_handler_error_or_failure_witness :
    request_handler 16 1 1 db_seat0_free [] = Outcome.sent db_seat0_free (some DBMSG_ERR) false
      ∧ request_handler 16 1 1 db_seat0_free "GET a b".toList
          = Outcome.sent db_seat0_free (some DBMSG_ERR) false
      ∧ request_handler 16 1 1 db_seat0_free "ADD 0".toList
          = Outcome.sent db_seat0_free (some DBMSG_FAIL) false :=
  ⟨(request_handler_error_or_failure 16 1 1 db_seat0_free [] (by decide) (by decide)
      (by decide)).1 (Or.inl (by decide)),
    (request_handler_error_or_failure 16 1 1 db_seat0_free "GET a b".toList (by decide)
      (by decide) (by decide)).1 (Or.inr ⟨by decide, by decide⟩),
    (request_handler_error_or_failure 16 1 1 db_seat0_free "ADD 0".toList (by decide)
      (by decide) (by decide)).2 (by decide) (by decide) (by decide) (by decide)⟩

/-- C12. On an empty data file `SET a`, a SET with a single token, replies `SUCCESS` and
appends a record for `a` with an all-zero value word; on the file whose record `0` holds
`7`, `SET 0` replies `SUCCESS` and overwrites that value with zero bytes; and `GET 0 AS x`,
a GET with three tokens, is executed as `GET 0` and replies `7`. None is rejected. -/
theorem shape_is_not_checked_against_operation :
    database_execute 16 ⟨[], []⟩ "SET a".toList
        = some (⟨word 16 "a".toList ++ List.replicate 16 NUL, [("a".toList, 16)]⟩, 0,
            DBMSG_SUCC)
      ∧ database_execute 16 db_seat0_taken "SET 0".toList
        = some (⟨word 16 "0".toList ++ List.replicate 16 NUL, [("0".toList, 16)]⟩, 0,
            DBMSG_SUCC)
      ∧ database_execute 16 db_seat0_taken "GET 0 AS x".toList
        = some (db_seat0_taken, 0, "7".toList) := by
  refine ⟨by decide, by decide, by decide⟩

/-- C13. For every field text, every table token and every value token, the structured
requests `GET field FROM table`, `SET field FROM table AS value` and `ADD field FROM table`
are rejected: database_execute returns 1 with `ERROR` and leaves the data alone, so no
composite key is ever formed. -/
theorem structured_requests_are_rejected (W : Nat) (db : database) (field table value : CStr)
    (ht : SP ∉ table) (ht0 : table ≠ []) (hv : SP ∉ value) (hv0 : value ≠ []) :
    database_execute W db ("GET ".toList ++ field ++ " FROM ".toList ++ table)
        = some (db, 1, DBMSG_ERR)
      ∧ database_execute W db
          ("SET ".toList ++ field ++ " FROM ".toList ++ table ++ " AS ".toList ++ value)
        = some (db, 1, DBMSG_ERR)
      ∧ database_execute W db ("ADD ".toList ++ field ++ " FROM ".toList ++ table)
        = some (db, 1, DBMSG_ERR) := by
  have hlen : ∀ (op rest : CStr), op.length = 4 → ¬ ((op ++ (field ++ SP :: rest)).length < 5) := by
    intro op rest hop
    rw [List.length_append, List.length_append, hop, List.length_cons]
    omega
  have hexec : ∀ (op rest : CStr), op.length = 4 →
      get_parsed_query W (field ++ SP :: rest) = ParseResult.malformed →
      database_execute W db (op ++ (field ++ SP :: rest)) = some (db, 1, DBMSG_ERR) := by
    intro op rest hop hp
    unfold database_execute
    rw [if_neg (hlen op rest hop), List.drop_left' hop, hp]
  refine ⟨?_, ?_, ?_⟩
  · have hq : "GET ".toList ++ field ++ " FROM ".toList ++ table
        = "GET ".toList ++ (field ++ SP :: ("FROM".toList ++ SP :: table)) := by
      rw [List.append_assoc, List.append_assoc]
      rfl
    rw [hq]
    exact hexec _ _ rfl (get_parsed_query_from W field table ht ht0)
  · have hq : "SET ".toList ++ field ++ " FROM ".toList ++ table ++ " AS ".toList ++ value
        = "SET ".toList ++ (field ++ SP :: ("FROM".toList ++ SP ::
            (table ++ SP :: ("AS".toList ++ SP :: value)))) := by
      simp only [List.append_assoc]
      rfl
    rw [hq]
    exact hexec _ _ rfl (get_parsed_query_from_as W field table value ht ht0 hv hv0)
  · have hq : "ADD ".toList ++ field ++ " FROM ".toList ++ table
        = "ADD ".toList ++ (field ++ SP :: ("FROM".toList ++ SP :: table)) := by
      rw [List.append_assoc, List.append_assoc]
      rfl
    rw [hq]
    exact hexec _ _ rfl (get_parsed_query_from W field table ht ht0)

theorem structured_requests_are_rejected_witness :
    (SP ∉ "CONFIG".toList ∧ "CONFIG".toList ≠ [] ∧ SP ∉ "1".toList ∧ "1".toList ≠ [])
      ∧ database_execute 16 db_seat0_free
          ("GET ".toList ++ "ROWS".toList ++ " FROM ".toList ++ "CONFIG".toList)
        = some (db_seat0_free, 1, DBMSG_ERR)
      ∧ database_execute 16 db_seat0_free
          ("SET ".toList ++ "ROWS".toList ++ " FROM ".toList ++ "CONFIG".toList
            ++ " AS ".toList ++ "1".toList)
        = some (db_seat0_free, 1, DBMSG_ERR)
      ∧ database_execute 16 db_seat0_free
          ("ADD ".toList ++ "ROWS".toList ++ " FROM ".toList ++ "CONFIG".toList)
        = some (db_seat0_free, 1, DBMSG_ERR) :=
  ⟨⟨by decide, by decide, by decide, by decide⟩,
    structured_requests_are_rejected 16 db_seat0_free "ROWS".toList "CONFIG".toList
      "1".toList (by decide) (by decide) (by decide) (by decide)⟩

/-- C14, counterexample. On an empty data file `ADD a` replies `FAILURE` and creates no
record, and the `GET a` that follows replies `FAILURE`. -/
theorem add_replies_failure :
    database_execute 16 ⟨[], []⟩ "ADD a".toList = some (⟨[], []⟩, 0, DBMSG_FAIL)
      ∧ database_execute 16 ⟨[], []⟩ "GET a".toList = some (⟨[], []⟩, 0, DBMSG_FAIL)
      ∧ DBMSG_FAIL ≠ DBMSG_SUCC := by
  refine ⟨by decide, by decide, by decide⟩

/-- C14, amended. For every key of at most `W` bytes, non-empty and without space, the
request `ADD key` replies `FAILURE` and leaves the data unchanged; so when the key has no
index entry, the `GET key` that follows replies `FAILURE` as well. -/
theorem add_creates_nothing (W : Nat) (db : database) (key : CStr) (hk : key ≠ [])
    (hkW : key.length ≤ W) (hksp : SP ∉ key) :
    database_execute W db ("ADD ".toList ++ key) = some (db, 0, DBMSG_FAIL)
      ∧ (index_table_key_offset db.index_table key = none →
          database_execute W db ("GET ".toList ++ key) = some (db, 0, DBMSG_FAIL)) := by
  constructor
  · have hl : 5 ≤ ("ADD ".toList ++ key).length := by
      rw [List.length_append]
      have h4 : "ADD ".toList.length = 4 := rfl
      have hk1 : 0 < key.length := List.length_pos.mpr hk
      omega
    have hd : ("ADD ".toList ++ key).drop 4 = key := rfl
    have ht : ("ADD ".toList ++ key).take 4 = "ADD ".toList := rfl
    refine database_execute_other_op W db _ hl ?_ ?_ ?_
    · rw [hd, strtok_all_no_sp key hksp hk]
      simp only [shape_accepted, decide_eq_true_eq]
      exact hkW
    · rw [ht]
      decide
    · rw [ht]
      decide
  · intro habs
    rw [database_execute_get W db key hk hkW hksp]
    unfold database_get
    simp only [habs]

theorem add_creates_nothing_witness :
    ("ROWS".toList ≠ [] ∧ "ROWS".toList.length ≤ 16 ∧ SP ∉ "ROWS".toList)
      ∧ database_execute 16 db_seat0_free ("ADD ".toList ++ "ROWS".toList)
          = some (db_seat0_free, 0, DBMSG_FAIL)
      ∧ database_execute 16 db_seat0_free ("GET ".toList ++ "ROWS".toList)
          = some (db_seat0_free, 0, DBMSG_FAIL) :=
  ⟨⟨by decide, by decide, by decide⟩,
    (add_creates_nothing 16 db_seat0_free "ROWS".toList (by decide) (by decide)
      (by decide)).1,
    (add_creates_nothing 16 db_seat0_free "ROWS".toList (by decide) (by decide)
      (by decide)).2 (by decide)⟩

/-- C15. Whatever the file, on an index without entries database_get replies `FAILURE`
after the single lock call index_table_rdlock: it returns with one hold on the table lock
that it did not have on entry. The same happens on the file whose only record has the
key `0` when the key `a` is asked for. -/
theorem database_get_absent_key_keeps_table_lock :
    (∀ (W : Nat) (file : List Char) (parsed_query : query),
        database_get W ⟨file, []⟩ parsed_query = some DBMSG_FAIL
          ∧ database_get_lock_calls W ⟨file, []⟩ parsed_query = [LockCall.table_rdlock]
          ∧ table_holds (database_get_lock_calls W ⟨file, []⟩ parsed_query) = 1)
      ∧ database_get 16 db_seat0_free ⟨"a".toList, []⟩ = some DBMSG_FAIL
      ∧ table_holds (database_get_lock_calls 16 db_seat0_free ⟨"a".toList, []⟩) = 1 := by
  refine ⟨fun W file parsed_query => ⟨rfl, rfl, rfl⟩, by decide, by decide⟩

/-- C16. For a file of whole records whose index entries are offsets of value words inside
the file, and a key and a value of at most `W` bytes, database_set replies `SUCCESS` and
changes the file in one of two ways. If the key has no index entry, the file grows by
exactly one record: the key followed by zero bytes up to `W`, then the value followed by
zero bytes up to `W`. If the key has the index entry `off`, then `off` is the offset of a
value word, the length of the file is unchanged, the bytes before `off` and the bytes from
`off + W` on are unchanged, and the `W` bytes at `off` are the value followed by zero
bytes. In both cases the file is again a sequence of whole records. -/
theorem database_set_changes_file (W : Nat) (db : database) (k v : CStr)
    (hk : k.length ≤ W) (hv : v.length ≤ W) (hrec : 2 * W ∣ db.file.length)
    (hidx : index_in_file W db) :
    (database_set W db ⟨k, v⟩).2 = DBMSG_SUCC
      ∧ (index_table_key_offset db.index_table k = none →
          (database_set W db ⟨k, v⟩).1.file
            = db.file ++ (k ++ List.replicate (W - k.length) NUL)
                ++ (v ++ List.replicate (W - v.length) NUL))
      ∧ (∀ off, index_table_key_offset db.index_table k = some off →
          off % (2 * W) = W
            ∧ off + W ≤ db.file.length
            ∧ (database_set W db ⟨k, v⟩).1.file.length = db.file.length
            ∧ (database_set W db ⟨k, v⟩).1.file.take off = db.file.take off
            ∧ (database_set W db ⟨k, v⟩).1.file.drop (off + W) = db.file.drop (off + W)
            ∧ ((database_set W db ⟨k, v⟩).1.file.drop off).take W
                = v ++ List.replicate (W - v.length) NUL)
      ∧ 2 * W ∣ (database_set W db ⟨k, v⟩).1.file.length := by
  rcases hoff : index_table_key_offset db.index_table k with _ | off
  · have hset : database_set W db ⟨k, v⟩
        = (⟨db.file ++ word W k ++ word W v,
            index_table_update W db.index_table (db.file ++ word W k ++ word W v)⟩,
          DBMSG_SUCC) := by
      unfold database_set
      simp only [hoff]
    rw [hset]
    refine ⟨rfl, fun _ => ?_, fun off h => absurd h (by simp), ?_⟩
    · show db.file ++ word W k ++ word W v = _
      rw [word_eq W k hk, word_eq W v hv]
    · show 2 * W ∣ (db.file ++ word W k ++ word W v).length
      rw [List.length_append, List.length_append, word_length, word_length]
      obtain ⟨n, hn⟩ := hrec
      exact ⟨n + 1, by rw [hn]; ring⟩
  · have hset : database_set W db ⟨k, v⟩
        = (⟨write_at db.file off (word W v), db.index_table⟩, DBMSG_SUCC) := by
      unfold database_set
      simp only [hoff]
    obtain ⟨e, he, heoff⟩ := index_entry_of_key_offset db.index_table k off hoff
    obtain ⟨hodd, hin⟩ := hidx e he
    rw [heoff] at hodd hin
    have hin' : off + (word W v).length ≤ db.file.length := by
      rw [word_length]
      exact hin
    obtain ⟨hlen, htake, hdrop⟩ := write_at_inside db.file off (word W v) hin'
    rw [word_length] at hdrop
    rw [hset]
    refine ⟨rfl, fun h => absurd h (by simp), fun off' h => ?_, ?_⟩
    · have ho : off' = off := by
        simp only [Option.some.injEq] at h
        exact h.symm
      subst ho
      refine ⟨hodd, hin, hlen, htake, hdrop, ?_⟩
      show ((write_at db.file off' (word W v)).drop off').take W = _
      rw [drop_write_at, List.take_left' (word_length W v), word_eq W v hv]
    · show 2 * W ∣ (write_at db.file off (word W v)).length
      rw [hlen]
      exact hrec

theorem database_set_changes_file_witness :
    ("0".toList.length ≤ 16 ∧ "5".toList.length ≤ 16 ∧ 2 * 16 ∣ db_seat0_taken.file.length
        ∧ index_in_file 16 db_seat0_taken)
      ∧ (database_set 16 db_seat0_taken ⟨"0".toList, "5".toList⟩).2 = DBMSG_SUCC
      ∧ (16 % (2 * 16) = 16
          ∧ 16 + 16 ≤ db_seat0_taken.file.length
          ∧ (database_set 16 db_seat0_taken ⟨"0".toList, "5".toList⟩).1.file.length
              = db_seat0_taken.file.length
          ∧ (database_set 16 db_seat0_taken ⟨"0".toList, "5".toList⟩).1.file.take 16
              = db_seat0_taken.file.take 16
          ∧ (database_set 16 db_seat0_taken ⟨"0".toList, "5".toList⟩).1.file.drop (16 + 16)
              = db_seat0_taken.file.drop (16 + 16)
          ∧ ((database_set 16 db_seat0_taken ⟨"0".toList, "5".toList⟩).1.file.drop 16).take 16
              = "5".toList ++ List.replicate (16 - "5".toList.length) NUL)
      ∧ 2 * 16 ∣ (database_set 16 db_seat0_taken ⟨"0".toList, "5".toList⟩).1.file.length :=
  ⟨⟨by decide, by decide, by decide, by decide⟩,
    (database_set_changes_file 16 db_seat0_taken "0".toList "5".toList (by decide)
      (by decide) (by decide) (by decide)).1,
    (database_set_changes_file 16 db_seat0_taken "0".toList "5".toList (by decide)
      (by decide) (by decide) (by decide)).2.2.1 16 (by decide),
    (database_set_changes_file 16 db_seat0_taken "0".toList "5".toList (by decide)
      (by decide) (by decide) (by decide)).2.2.2⟩

/-- C17. The file of one whole record whose key is the single byte 0xFF has the length of
one record, and load_table returns 1 on it: the key byte 0xFF, stored in a `char`, is
taken for EOF. -/
theorem load_table_fails_on_key_ff :
    file_key_ff.length = 2 * MAXLEN ∧ load_table file_key_ff [] = none := by
  refine ⟨by decide, ?_⟩
  unfold load_table
  rw [load_table_scan]
  have h1 : ¬ (file_key_ff = []) := by decide
  have h2 : (file_key_ff.take MAXLEN).length < MAXLEN ∨ BYTE_FF ∈ file_key_ff.take MAXLEN := by
    decide
  rw [dif_neg h1, if_pos h2]

/-- C18, counterexample. For the strings `a` = the single byte 0x80 and `b` = "a",
lexicographical_comparison returns -1, as if `a` were smaller, while in the lexicographic
order on the bytes `b` is smaller than `a`. -/
theorem comparison_differs_from_byte_order :
    is_cstring [Char.ofNat 128] ∧ is_cstring "a".toList
      ∧ lexicographical_comparison [Char.ofNat 128] "a".toList = -1
      ∧ List.Lex byte_lt "a".toList [Char.ofNat 128] := by
  refine ⟨by decide, by decide, by decide, by decide⟩

/-- C18, amended. For all C strings `a`, `b`, `c`, lexicographical_comparison returns -1,
0 or 1 according to whether `a` is less than, equal to or greater than `b` in the
lexicographic order built on the order of the bytes as signed `char` values, a proper
prefix being smaller; it returns 0 exactly when `a = b`, the result for `(b, a)` is the
negative of the result for `(a, b)`, and the comparison is transitive. -/
theorem lexicographical_comparison_total_order (a b c : CStr) (ha : is_cstring a)
    (hb : is_cstring b) :
    (lexicographical_comparison a b = -1 ∨ lexicographical_comparison a b = 0
        ∨ lexicographical_comparison a b = 1)
      ∧ (lexicographical_comparison a b = -1 ↔ List.Lex char_lt a b)
      ∧ (lexicographical_comparison a b = 0 ↔ a = b)
      ∧ (lexicographical_comparison a b = 1 ↔ List.Lex char_lt b a)
      ∧ lexicographical_comparison a b = - lexicographical_comparison b a
      ∧ (lexicographical_comparison a b = -1 → lexicographical_comparison b c = -1 →
          lexicographical_comparison a c = -1) := by
  refine ⟨lexicographical_comparison_range a b, lexicographical_comparison_lt a b ha hb,
    lexicographical_comparison_eq_zero a b ha hb, ?_, lexicographical_comparison_neg a b,
    lexicographical_comparison_trans a b c⟩
  rw [← lexicographical_comparison_lt b a hb ha, lexicographical_comparison_neg a b]
  constructor <;> intro h <;> omega

theorem lexicographical_comparison_total_order_witness :
    (is_cstring "AB".toList ∧ is_cstring "ABC".toList)
      ∧ (lexicographical_comparison "AB".toList "ABC".toList = -1
          ∨ lexicographical_comparison "AB".toList "ABC".toList = 0
          ∨ lexicographical_comparison "AB".toList "ABC".toList = 1)
      ∧ (lexicographical_comparison "AB".toList "ABC".toList = -1
          ↔ List.Lex char_lt "AB".toList "ABC".toList)
      ∧ (lexicographical_comparison "AB".toList "ABC".toList = 0
          ↔ "AB".toList = "ABC".toList)
      ∧ (lexicographical_comparison "AB".toList "ABC".toList = 1
          ↔ List.Lex char_lt "ABC".toList "AB".toList)
      ∧ lexicographical_comparison "AB".toList "ABC".toList
          = - lexicographical_comparison "ABC".toList "AB".toList
      ∧ (lexicographical_comparison "AB".toList "ABC".toList = -1 →
          lexicographical_comparison "ABC".toList [Char.ofNat 128] = -1 →
          lexicographical_comparison "AB".toList [Char.ofNat 128] = -1) :=
  ⟨⟨by decide, by decide⟩,
    lexicographical_comparison_total_order "AB".toList "ABC".toList [Char.ofNat 128]
      (by decide) (by decide)⟩

/-- C20. In the data file whose records store `0` under `ID_COUNTER` and `7` under `0`,
the book request `0 0`, whose id word is `0` and whose seat is not free, returns 1 and
leaves the data as they were: ID_COUNTER still holds 0, not 1. -/
theorem rejected_mint_keeps_counter :
    stored_value 16 db_counter0_seat0_taken "ID_COUNTER".toList = some "0".toList
      ∧ stored_value 16 db_counter0_seat0_taken "0".toList = some "7".toList
      ∧ db_book 16 db_counter0_seat0_taken "0 0".toList
          = some (db_counter0_seat0_taken, 1, none) := by
  refine ⟨by decide, by decide, by decide⟩

end Cinemad
